import Mathlib

/-!
Verification development for the email-fetcher repository.

This file gives a shallow embedding, in Lean 4, of the core logic of the
repository and settles the claims of the specification against it:

  * the thread correlator (src/sync/threader.ts),
  * the classification needsResponse and itemType logic
    (the two categorizer variants in the repository),
  * the dashboard todo reconciliation (src/dashboard/todo-sync.ts),
  * the QB sync alert lifecycle (the alert manager in
    src/jobs/run-jobs-report.ts) and the hourly check checkpointing.

Conventions of the embedding:

  * JavaScript Map objects are modelled by insertion-ordered association
    lists, List (String x a): setting a fresh key appends at the end,
    setting an existing key updates in place, and iteration is list order.
    This mirrors JS Map iteration-order semantics exactly.
  * Nullable values are Option; the JS truthiness of a string value
    (null, undefined and "" are falsy) is the function truthy below.
  * Timestamps are integers (milliseconds, Date.getTime()).
  * JSON.parse results are modelled by carrying the parse outcome in the
    data: a parsed structure next to the raw string, or a malformed tag,
    matching each catch branch in the source.
  * External collaborators (the QuickBooks client, the customer matcher,
    the sales-order matcher, the PDF analyzer, the trusted-domain check,
    the SMTP sink) are oracle functions packaged in an environment
    record; the embedded control flow around them is taken verbatim from
    the source.
  * The unbounded while loops of the threader that follow merge chains
    are modelled by a fuelled chase function called with fuel equal to
    the size of the merge map; the termination theorems prove that this
    fuel is always sufficient for maps built by the algorithm, which is
    exactly the claim that the source loops terminate in bounded steps.

All string processing is ASCII-faithful: the repository compares and
lowercases header strings and body prefixes that are ASCII in all the
relevant pattern sets, and the JS regexes involved are translated to
explicit character-list scanners below, one per regex, each documented
with the regex it translates.
-/

set_option maxRecDepth 4000

namespace EmailFetcher

/-- JS whitespace class for the purposes of the source regexes:
space, tab, newline, carriage return, vertical tab, form feed. -/
def isSpaceJs (c : Char) : Bool :=
  c = ' ' || c = '\t' || c = '\n' || c = '\r' || c = '\x0b' || c = '\x0c'

/-- ASCII lowercasing of one character, as used by toLowerCase on the
ASCII fragments the source manipulates. -/
def lowerChar (c : Char) : Char :=
  if 'A' ≤ c && c ≤ 'Z' then Char.ofNat (c.toNat + 32) else c

/-- toLowerCase on a string (ASCII fragment). -/
def lowerStr (s : String) : String :=
  ⟨s.data.map lowerChar⟩

/-- JS String.prototype.trim on the ASCII whitespace class. -/
def jsTrim (s : String) : String :=
  ⟨(s.data.dropWhile isSpaceJs).reverse.dropWhile isSpaceJs |>.reverse⟩

/-- Contiguous-sublist test on character lists. -/
def isSubList (sub : List Char) : List Char → Bool
  | [] => sub.isEmpty
  | c :: t => sub.isPrefixOf (c :: t) || isSubList sub t

/-- JS String.prototype.includes: substring test. -/
def containsSub (s sub : String) : Bool :=
  isSubList sub.data s.data

/-- JS String.prototype.startsWith. -/
def startsWithStr (s p : String) : Bool :=
  p.data.isPrefixOf s.data

/-- JS String.prototype.endsWith. -/
def endsWithStr (s p : String) : Bool :=
  p.data.isSuffixOf s.data

/-- JS truthiness of a nullable string: null, undefined and "" are falsy. -/
def truthy : Option String → Bool
  | none => false
  | some s => s != ""

/-- JS idiom (x || undefined) on a nullable string: collapse the empty
string to undefined. -/
def orUndef : Option String → Option String
  | none => none
  | some s => if s = "" then none else some s

/-- JS idiom (x || undefined) on a nullable number: collapse 0 to
undefined. -/
def orUndefNat : Option Nat → Option Nat
  | none => none
  | some n => if n = 0 then none else some n

/-- Split a string into maximal runs of non-whitespace characters
(the effect of split on a whitespace regex followed by filter(Boolean)
in generateThreadId). -/
def wordsJs (s : String) : List String :=
  ((s.data.splitOnP isSpaceJs).map fun l => (⟨l⟩ : String)).filter (· != "")

/-- JS-Map get modelled on an insertion-ordered association list. -/
def jget {α : Type} : List (String × α) → String → Option α
  | [], _ => none
  | (k, v) :: t, q => if k = q then some v else jget t q

/-- JS-Map has. -/
def jhas {α : Type} (m : List (String × α)) (k : String) : Bool :=
  (jget m k).isSome

/-- JS-Map set: update in place if the key exists, else append, keeping
insertion order. -/
def jset {α : Type} : List (String × α) → String → α → List (String × α)
  | [], k, v => [(k, v)]
  | (k1, v1) :: t, k, v =>
    if k1 = k then (k1, v) :: t else (k1, v1) :: jset t k v

/-- Keys of an association list, in insertion order. -/
def jkeys {α : Type} (m : List (String × α)) : List String :=
  m.map Prod.fst

/-- One attachment metadata record as stored in the attachments JSON
column (fields of the object type destructured in hasRealAttachments). -/
structure Att where
  filename : Option String
  contentType : Option String
  size : Option Nat
deriving DecidableEq, Repr

/-- The attachments column value together with the outcome of
JSON.parse on it: either the parse throws (malformed) or it yields a
list of attachment records. The raw text is kept because the alert
manager also greps the raw column for "pdf". -/
inductive AttachmentsVal where
  | malformed (raw : String)
  | parsed (raw : String) (atts : List Att)
deriving DecidableEq, Repr

/-- Raw text of the attachments column. -/
def AttachmentsVal.raw : AttachmentsVal → String
  | .malformed r => r
  | .parsed r _ => r

/-- The toAddresses column value together with the outcome of
JSON.parse on it: a JSON string array, or a non-JSON raw string that
the source falls back to splitting on commas. -/
inductive ToAddrsVal where
  | parsedJson (addrs : List String)
  | rawStr (s : String)
deriving DecidableEq, Repr

/-- A row of the emails table, with the columns the embedded functions
read. date is the millisecond timestamp of the Date column when
present. -/
structure Email where
  uid : Nat
  messageId : Option String
  inReplyTo : Option String
  references : Option String
  subject : Option String
  date : Option Nat
  fromAddress : Option String
  fromName : Option String
  mailbox : String
  toAddresses : Option ToAddrsVal
  bodyText : Option String
  hasAttachments : Bool
  attachments : Option AttachmentsVal
deriving DecidableEq, Repr

/-- Default email row: every nullable column null, mailbox INBOX. -/
def defaultEmail : Email :=
  { uid := 0, messageId := none, inReplyTo := none, references := none
    subject := none, date := none, fromAddress := none, fromName := none
    mailbox := "INBOX", toAddresses := none, bodyText := none
    hasAttachments := false, attachments := none }

/-! ## Thread correlator (src/sync/threader.ts) -/

/-- Strip one leading reply or forward marker, case-insensitively, then
the whitespace after it. Translates the first replace of
normalizeSubject: the regex has a g flag but is anchored at the start
and therefore fires at most once. -/
def stripReplyMarker (s : String) : String :=
  let ls := lowerStr s
  if startsWithStr ls "re:" then ⟨(s.data.drop 3).dropWhile isSpaceJs⟩
  else if startsWithStr ls "fwd:" then ⟨(s.data.drop 4).dropWhile isSpaceJs⟩
  else if startsWithStr ls "fw:" then ⟨(s.data.drop 3).dropWhile isSpaceJs⟩
  else s

/-- Helper for stripBracketTag: given the characters after a leading
open bracket, return the characters after the first close bracket,
provided no newline intervenes (a dot in the source regex does not
match newline). -/
def afterCloseBracket : List Char → Option (List Char)
  | [] => none
  | c :: t =>
    if c = ']' then some t
    else if c = '\n' then none
    else afterCloseBracket t

/-- Strip one leading bracketed tag and the whitespace after it.
Translates the second replace of normalizeSubject, again anchored. -/
def stripBracketTag (s : String) : String :=
  match s.data with
  | '[' :: rest =>
    match afterCloseBracket rest with
    | some t => ⟨t.dropWhile isSpaceJs⟩
    | none => s
  | _ => s

/-- normalizeSubject from src/sync/threader.ts. -/
def normalizeSubject (subject : Option String) : String :=
  match subject with
  | none => ""
  | some s =>
    if s = "" then ""
    else lowerStr (jsTrim (stripBracketTag (stripReplyMarker s)))

/-- generateThreadId from src/sync/threader.ts. -/
def generateThreadId (messageId inReplyTo references subject : Option String) :
    String :=
  let refs := if truthy references then wordsJs (references.getD "") else []
  match refs with
  | r :: _ => r
  | [] =>
    if truthy inReplyTo then inReplyTo.getD ""
    else if truthy messageId then messageId.getD ""
    else "subject:" ++ normalizeSubject subject

/-- The thread id assigned to one email row. -/
def threadIdOf (e : Email) : String :=
  generateThreadId e.messageId e.inReplyTo e.references e.subject

/-- Append one email to the bucket of a key, creating the bucket when
absent (the has or set-empty followed by get and push sequence of the
source). -/
def pushBucket (m : List (String × List Email)) (k : String) (e : Email) :
    List (String × List Email) :=
  jset m k ((jget m k).getD [] ++ [e])

/-- Append a list of emails to the bucket of a key. -/
def pushBucketAll (m : List (String × List Email)) (k : String)
    (es : List Email) : List (String × List Email) :=
  jset m k ((jget m k).getD [] ++ es)

/-- One step of the first pass: assign the thread id of one email and
record its messageId mapping. -/
def pass1step (acc : List (String × List Email) × List (String × String))
    (e : Email) : List (String × List Email) × List (String × String) :=
  let tid := threadIdOf e
  let midMap :=
    if truthy e.messageId then jset acc.2 (e.messageId.getD "") tid
    else acc.2
  (pushBucket acc.1 tid e, midMap)

/-- First pass of groupEmailsIntoThreads: assign thread ids and record
the messageId-to-thread map. -/
def pass1 (emails : List Email) :
    List (String × List Email) × List (String × String) :=
  emails.foldl pass1step ([], [])

/-- Fuelled merge-chain chase: the while loops of passes two and three
follow map entries until a key is unmapped. The loops of the source are
unbounded; termination with fuel equal to the map size is proved below
(claim C10). -/
def chase (m : List (String × String)) : Nat → String → String
  | 0, x => x
  | n + 1, x =>
    match jget m x with
    | none => x
    | some v => chase m n v

/-- The merge target of one thread in the second pass: scan its emails
for an inReplyTo pointing into another thread (first hit wins, the
source breaks) and chase the merge chain from there; threads without
such a reference keep their own id. -/
def pass2target (midMap tmm : List (String × String)) (tid : String)
    (temails : List Email) : String :=
  match temails.find? (fun e =>
      truthy e.inReplyTo &&
        (match jget midMap (e.inReplyTo.getD "") with
         | some rt => rt != tid
         | none => false)) with
  | some e =>
    chase tmm tmm.length ((jget midMap (e.inReplyTo.getD "")).getD "")
  | none => tid

/-- One step of the second pass: decide the merge target of one thread,
record the merge, and move the emails into the final target bucket. -/
def pass2step (midMap : List (String × String))
    (acc : List (String × List Email) × List (String × String))
    (entry : String × List Email) :
    List (String × List Email) × List (String × String) :=
  let tid := entry.1
  let target := pass2target midMap acc.2 tid entry.2
  let tmm2 := if target != tid then jset acc.2 tid target else acc.2
  let ft := chase tmm2 tmm2.length target
  (pushBucketAll acc.1 ft entry.2, tmm2)

/-- Second pass of groupEmailsIntoThreads: merge threads related via
In-Reply-To. Returns the merged buckets and the final merge map. -/
def pass2 (midMap : List (String × String))
    (threads : List (String × List Email)) :
    List (String × List Email) × List (String × String) :=
  threads.foldl (pass2step midMap) ([], [])

/-- One step of the first half of the third pass: claim normalized
subjects (longer than five characters) for the first thread carrying
them and record subject-based merges for later threads with the same
subject. -/
def pass3aStep (acc : List (String × String) × List (String × String))
    (entry : String × List Email) :
    List (String × String) × List (String × String) :=
  let s2t := acc.1
  let smm := acc.2
  let normSubject :=
    normalizeSubject (match entry.2.head? with
      | some e => e.subject
      | none => none)
  if normSubject != "" && normSubject.length > 5 then
    match jget s2t normSubject with
    | some existing => (s2t, jset smm entry.1 existing)
    | none => (jset s2t normSubject entry.1, smm)
  else acc

/-- First half of the third pass, folded over the merged buckets. -/
def pass3a (merged : List (String × List Email)) :
    List (String × String) × List (String × String) :=
  merged.foldl pass3aStep ([], [])

/-- One step of the second half of the third pass: move one bucket into
its final subject-merge target. -/
def pass3bStep (smm : List (String × String))
    (acc : List (String × List Email)) (entry : String × List Email) :
    List (String × List Email) :=
  pushBucketAll acc (chase smm smm.length entry.1) entry.2

/-- Second half of the third pass, folded over the merged buckets. -/
def pass3b (smm : List (String × String))
    (merged : List (String × List Email)) : List (String × List Email) :=
  merged.foldl (pass3bStep smm) []

/-- Sort key of an email inside a thread: the date, with a missing date
treated as 0 by the JS expression (a.date?.getTime() || 0). -/
def sortKey (e : Email) : Nat :=
  e.date.getD 0

/-- Stable insertion of an email into a list sorted ascending by
sortKey: the new email goes after every element with a key not above
its own, which is the placement a stable ascending comparator sort
gives. -/
def insSorted (e : Email) : List Email → List Email
  | [] => [e]
  | f :: t => if sortKey f ≤ sortKey e then f :: insSorted e t else e :: f :: t

/-- Stable ascending sort by sortKey, modelling the stable JS
Array.prototype.sort with the comparator dateA - dateB. -/
def isortEmails (l : List Email) : List Email :=
  l.foldl (fun acc e => insSorted e acc) []

/-- groupEmailsIntoThreads from src/sync/threader.ts: the three merge
passes followed by the per-thread date sort. -/
def groupEmailsIntoThreads (emails : List Email) :
    List (String × List Email) :=
  let p1 := pass1 emails
  let p2 := pass2 p1.2 p1.1
  let smm := (pass3a p2.1).2
  let final := pass3b smm p2.1
  final.map fun p => (p.1, isortEmails p.2)

/-- The In-Reply-To merge map built by the second pass, for the
termination claim. -/
def threadMergeMapOf (emails : List Email) : List (String × String) :=
  (pass2 (pass1 emails).2 (pass1 emails).1).2

/-- The subject merge map built by the third pass, for the termination
claim. -/
def subjectMergeMapOf (emails : List Email) : List (String × String) :=
  (pass3a (pass2 (pass1 emails).2 (pass1 emails).1).1).2

/-- All emails across the returned threads, in bucket order. -/
def allEmails (m : List (String × List Email)) : List Email :=
  (m.map Prod.snd).flatten

/-! ## Classification engine (the categorizer variants of the repository)

The repository carries two variants of the categorizer module. The one
called part_004 here determines needsResponse from acknowledgment and
attachment checks and applies a purchase-order safety net on itemType;
the one called part_005 applies three safety-net pattern families on
itemType and forces needsResponse for purchase orders and quote
requests. Both are embedded where claims touch them. -/

/-- The configured own domain (the default of the OUR_DOMAIN constant). -/
def OUR_DOMAIN : String := "masprecisionparts.com"

/-- Thread category values. -/
inductive Category where
  | customer | vendor | other
deriving DecidableEq, Repr

/-- Thread item type values. -/
inductive ItemT where
  | general | po_received | quote_request | otherItem
deriving DecidableEq, Repr

/-- The per-thread response of the external classifier collaborator. -/
structure AiResult where
  category : Category
  itemType : ItemT
  contactName : Option String
  summary : String
  needsResponse : Bool
  relatedTo : Option String
deriving DecidableEq, Repr

/-- PO details extracted from a PDF by the document analyzer. -/
structure PoDetails where
  poNumber : Option String
  total : Option Nat
deriving DecidableEq, Repr

/-- isOutbound from the categorizer: own domain in the from address, or
a sent mailbox. -/
def isOutbound (e : Email) : Bool :=
  containsSub (lowerStr (e.fromAddress.getD "")) OUR_DOMAIN ||
    e.mailbox = "Sent" || e.mailbox = "Sent Items"

/-- External contact of a thread. -/
structure Contact where
  email : Option String
  name : Option String
deriving DecidableEq, Repr

/-- Truthiness of the raw toAddresses column (checked before parsing). -/
def toAddrsTruthy : Option ToAddrsVal → Bool
  | none => false
  | some (.rawStr s) => s != ""
  | some (.parsedJson _) => true

/-- The recipient list view of the toAddresses column: the JSON array
when it parses, otherwise the comma-split, trimmed raw string. -/
def toListOf : ToAddrsVal → List String
  | .parsedJson a => a
  | .rawStr s => (s.splitOn ",").map jsTrim

/-- First recipient not on our domain. -/
def contactFromToList (l : List String) : Option String :=
  l.find? fun addr => !containsSub (lowerStr addr) OUR_DOMAIN

/-- getExternalContact from the categorizer: first inbound sender off
our domain, else first external recipient of an outbound email. -/
def getExternalContact (emails : List Email) : Contact :=
  match emails.find? (fun e =>
      !isOutbound e && truthy e.fromAddress &&
        !containsSub (lowerStr (e.fromAddress.getD "")) OUR_DOMAIN) with
  | some e => { email := e.fromAddress, name := orUndef e.fromName }
  | none =>
    match (emails.filterMap fun e =>
        if isOutbound e && toAddrsTruthy e.toAddresses then
          contactFromToList (toListOf (e.toAddresses.getD (.rawStr "")))
        else none).head? with
    | some addr => { email := some addr, name := none }
    | none => { email := none, name := none }

/-- isAutomatedEmail: the fixed automated-sender pattern set, each
pattern a case-insensitive substring, tested against the from address
and the subject. -/
def isAutomatedEmail (e : Email) : Bool :=
  let subject := lowerStr (e.subject.getD "")
  let sender := lowerStr (e.fromAddress.getD "")
  ["newsletter", "noreply", "no-reply", "donotreply", "automated",
   "notification", "alert@", "mailer-daemon", "postmaster"].any fun p =>
    containsSub sender p || containsSub subject p

/-- determineInitialCategory from the categorizer. -/
def determineInitialCategory (emails : List Email) : Category :=
  match emails with
  | [] => .other
  | _ :: _ =>
    let firstEmail := (isortEmails emails).headD defaultEmail
    if isAutomatedEmail firstEmail then .other
    else
      let subject := lowerStr (firstEmail.subject.getD "")
      if isOutbound firstEmail then
        if containsSub subject "invoice" || containsSub subject "quotation" ||
            containsSub subject "quote" || containsSub subject "estimate" ||
            containsSub subject "est_" || containsSub subject "inv_" then
          .customer
        else .vendor
      else .customer

/-- Stable insertion for the descending date sort (comparator
dateB - dateA) used by isLastEmailFromUs. -/
def insSortedDesc (e : Email) : List Email → List Email
  | [] => [e]
  | f :: t =>
    if sortKey e ≤ sortKey f then f :: insSortedDesc e t else e :: f :: t

/-- Stable descending sort by date. -/
def isortEmailsDesc (l : List Email) : List Email :=
  l.foldl (fun acc e => insSortedDesc e acc) []

/-- isLastEmailFromUs from the categorizer: direction of the most
recent email (stable descending sort, first element). -/
def isLastEmailFromUs (emails : List Email) : Bool :=
  match emails with
  | [] => false
  | _ :: _ => isOutbound ((isortEmailsDesc emails).headD defaultEmail)

/-- getLastEmailDate from the categorizer. -/
def getLastEmailDate (emails : List Email) : Option Nat :=
  emails.foldl
    (fun latest e =>
      match e.date, latest with
      | some d, none => some d
      | some d, some l => if d > l then some d else some l
      | none, l => l)
    none

/-- Word character class of the JS regex word boundary. -/
def isWordChar (c : Char) : Bool :=
  c.isAlphanum || c = '_'

/-- Scanner for the regex matching the word po, optional whitespace and
a digit, tracking the previous character for the word boundary. -/
def poNumGo : Option Char → List Char → Bool
  | _, [] => false
  | prev, c :: rest =>
    (c = 'p' &&
      (match prev with | none => true | some pc => !isWordChar pc) &&
      (match rest with
       | 'o' :: rest2 => ((rest2.dropWhile isSpaceJs).headD 'x').isDigit
       | _ => false)) ||
    poNumGo (some c) rest

/-- Test for the source regex of the form word-boundary, po, optional
whitespace, one or more digits (on an already lowercased string). -/
def hasPoNum (s : String) : Bool :=
  poNumGo none s.data

/-- Scanner for the regex matching the word po followed by five or more
digits. -/
def poDigits5Go : Option Char → List Char → Bool
  | _, [] => false
  | prev, c :: rest =>
    (c = 'p' &&
      (match prev with | none => true | some pc => !isWordChar pc) &&
      (match rest with
       | 'o' :: rest2 => (rest2.takeWhile Char.isDigit).length ≥ 5
       | _ => false)) ||
    poDigits5Go (some c) rest

/-- Test for the source regex of the form word-boundary, po, five or
more digits. -/
def hasPoDigits5 (s : String) : Bool :=
  poDigits5Go none s.data

/-- Does a signature marker of isSimpleAcknowledgment start at this
position: a newline, optional whitespace, then two dashes or
underscores, or sent from, or get outlook, or an open bracket. -/
def sigSplitPoint : List Char → Bool
  | '\n' :: rest =>
    let r := rest.dropWhile isSpaceJs
    (match r with
     | a :: b :: _ => (a = '-' || a = '_') && (b = '-' || b = '_')
     | _ => false) ||
    "sent from".data.isPrefixOf r ||
    "get outlook".data.isPrefixOf r ||
    r.headD 'x' = '['
  | _ => false

/-- Prefix of the text before the first signature marker (the [0] part
of the split in isSimpleAcknowledgment). -/
def takeUntilSig : List Char → List Char
  | [] => []
  | c :: rest => if sigSplitPoint (c :: rest) then [] else c :: takeUntilSig rest

/-- Cartesian concatenation of option lists, used to expand the finite
languages of the strict acknowledgment regexes. -/
def expandOpts (parts : List (List String)) : List String :=
  parts.foldl (fun acc opts => acc.flatMap fun p => opts.map fun o => p ++ o) [""]

/-- The optional exclamation mark and period tail shared by the strict
acknowledgment regexes. -/
def bangDot : List (List String) :=
  [["", "!"], ["", "."]]

/-- The language of the regex: optional great, thank, optional s,
optional exclamation mark, optional period. -/
def greatThanksStrings : List String :=
  expandOpts ([["", "great "], ["thank"], ["", "s"]] ++ bangDot)

/-- The full finite language of the strict acknowledgment pattern list
of isSimpleAcknowledgment, one expansion per source regex. -/
def strictAckStrings : List String :=
  greatThanksStrings ++
  expandOpts ([["thank you"]] ++ bangDot) ++
  expandOpts [["thanks"], ["", "!"], ["", " "], ["so much"], ["", "!"], ["", "."]] ++
  expandOpts ([["got it"]] ++ bangDot) ++
  expandOpts ([["sounds good"]] ++ bangDot) ++
  expandOpts ([["perfect"]] ++ bangDot) ++
  expandOpts ([["received"]] ++ bangDot) ++
  expandOpts ([["ok"]] ++ bangDot) ++
  expandOpts ([["okay"]] ++ bangDot) ++
  expandOpts ([["will do"]] ++ bangDot) ++
  expandOpts ([["noted"]] ++ bangDot) ++
  expandOpts ([["acknowledged"]] ++ bangDot) ++
  expandOpts ([["awesome"]] ++ bangDot) ++
  expandOpts ([["great"]] ++ bangDot)

/-- Tail test of the acknowledgment-with-closing regex: after the
acknowledgment, optional whitespace and an optional closing made of
newlines, whitespace and one lowercase word. -/
def ackTailOk (rest : List Char) : Bool :=
  rest.all isSpaceJs ||
  (let letters := (rest.reverse.takeWhile fun c => 'a' ≤ c && c ≤ 'z').reverse
   let w := rest.take (rest.length - letters.length)
   decide (letters.length > 0) && w.all isSpaceJs &&
     w.any fun c => c = '\n' || c = '\r')

/-- The acknowledgment-with-closing regex of isSimpleAcknowledgment:
an expansion of the optional-great thanks prefix followed by the
closing tail. -/
def ackClosingMatch (s : String) : Bool :=
  greatThanksStrings.any fun p =>
    p.data.isPrefixOf s.data && ackTailOk (s.data.drop p.length)

/-- isSimpleAcknowledgment from the part_004 categorizer. -/
def isSimpleAcknowledgment (bodyText : Option String) : Bool :=
  match bodyText with
  | none => false
  | some b =>
    if b = "" then false
    else
      let firstPart := jsTrim (lowerStr ⟨b.data.take 200⟩)
      let beforeSignature := jsTrim ⟨takeUntilSig firstPart.data⟩
      strictAckStrings.contains beforeSignature ||
        (ackClosingMatch beforeSignature &&
          decide (beforeSignature.length < 40))

/-- Suffix test for the signature-image filename regex: image, one or
more digits, a dot and an image extension at the end. -/
def imageNumSuffix (s : String) : Bool :=
  [".png", ".jpg", ".jpeg", ".gif"].any fun ext =>
    ext.data.isSuffixOf s.data &&
    (let core := s.data.take (s.data.length - ext.length)
     let ds := (core.reverse.takeWhile Char.isDigit).reverse
     decide (ds.length > 0) &&
       "image".data.isSuffixOf (core.take (core.length - ds.length)))

/-- The signature-image pattern set of hasRealAttachments applied to
one already lowercased string. -/
def sigImagePatternMatch (s : String) : Bool :=
  s = "image/png" || s = "image/jpeg" || s = "image/jpg" || s = "image/gif" ||
    containsSub s "logo" || containsSub s "signature" || imageNumSuffix s

/-- Per-attachment body of the hasRealAttachments loop: true when the
attachment causes the early true return, false when the loop continues. -/
def attIsReal (att : Att) : Bool :=
  let filename := lowerStr (att.filename.getD "")
  let contentType := lowerStr (att.contentType.getD "")
  if startsWithStr contentType "image/" && att.size.getD 0 < 100000 then false
  else if (sigImagePatternMatch filename || sigImagePatternMatch contentType) &&
      att.size.getD 0 < 100000 then false
  else
    containsSub contentType "pdf" || containsSub contentType "document" ||
    containsSub contentType "spreadsheet" || containsSub contentType "msword" ||
    containsSub contentType "excel" || containsSub contentType "application/" ||
    endsWithStr filename ".pdf" || endsWithStr filename ".doc" ||
    endsWithStr filename ".docx" || endsWithStr filename ".xls" ||
    endsWithStr filename ".xlsx" || att.size.getD 0 > 100000

/-- hasRealAttachments from the part_004 categorizer: no attachments
column or a failing parse yield false, otherwise some attachment
passes the real-attachment checks. -/
def hasRealAttachments (e : Email) : Bool :=
  match e.attachments with
  | none => false
  | some (.malformed _) => false
  | some (.parsed _ atts) => atts.any attIsReal

/-- A categorized thread (the CategorizedThread record produced by the
categorizer and consumed by todo sync and the alert manager). -/
structure CThread where
  threadKey : String
  emails : List Email
  category : Category
  itemType : ItemT
  contactEmail : Option String
  contactName : Option String
  subject : String
  summary : Option String
  emailCount : Nat
  lastEmailDate : Option Nat
  lastEmailFromUs : Bool
  needsResponse : Bool
  poDetails : Option PoDetails
  isSuspicious : Bool
deriving DecidableEq, Repr

/-- The per-thread data assembled before the classifier call. -/
structure ThreadData where
  threadKey : String
  threadEmails : List Email
  initialCategory : Category
  contact : Contact
  lastEmailFromUs : Bool
  lastEmailDate : Option Nat
deriving DecidableEq, Repr

/-- The thread data list of categorizeThreads: one entry per nonempty
bucket of the thread map, in map order. -/
def threadsDataOf (threadMap : List (String × List Email)) :
    List ThreadData :=
  threadMap.filterMap fun p =>
    match p.2 with
    | [] => none
    | _ :: _ =>
      some { threadKey := p.1, threadEmails := p.2
             initialCategory := determineInitialCategory p.2
             contact := getExternalContact p.2
             lastEmailFromUs := isLastEmailFromUs p.2
             lastEmailDate := getLastEmailDate p.2 }

/-- The merge map derived from the relatedTo suggestions of the
classifier: thread key to target key, only when the target is a known
thread, in classifier result order. -/
def mergedIntoOf (dataByKey : List (String × ThreadData))
    (aiResults : List (String × AiResult)) : List (String × String) :=
  aiResults.foldl
    (fun m p =>
      match p.2.relatedTo with
      | some rt => if jhas dataByKey rt then jset m p.1 rt else m
      | none => m)
    []

/-- The part_004 needsResponse determination for the final email list
of a thread: outbound last email wins, then the acknowledgment check,
then the real-attachment check, then the classifier value defaulting
to true. -/
def needsResponse4 (lastEmail : Option Email) (lastEmailFromUs : Bool)
    (aiResult : Option AiResult) : Bool :=
  if lastEmailFromUs then false
  else if isSimpleAcknowledgment (lastEmail.bind (·.bodyText)) then false
  else if (match lastEmail with
           | some le => le.hasAttachments && hasRealAttachments le
           | none => false) then true
  else (aiResult.map (·.needsResponse)).getD true

/-- The part_004 purchase-order safety net on the subject of the first
email (already lowercased). -/
def poSubjectIndicator4 (subjectLower : String) : Bool :=
  containsSub subjectLower "po number" ||
  containsSub subjectLower "po attached" ||
  containsSub subjectLower "po#" ||
  containsSub subjectLower "purchase order" ||
  hasPoNum subjectLower ||
  hasPoDigits5 subjectLower

/-- Build one output thread of the part_004 categorizeThreads from its
thread data, given the classifier results and the merge map. -/
def buildThread4 (dataByKey : List (String × ThreadData))
    (aiResults : List (String × AiResult))
    (mergedInto : List (String × String)) (data : ThreadData) : CThread :=
  let firstEmail := data.threadEmails.headD defaultEmail
  let aiResult := jget aiResults data.threadKey
  let mergedPairs := mergedInto.filter fun p => p.2 = data.threadKey
  let foundMerged := mergedPairs.filterMap fun p =>
    (jget dataByKey p.1).map (·.threadEmails)
  let allE := isortEmails (data.threadEmails ++ foundMerged.flatten)
  let lastEmail := allE.getLast?
  let lastEmailFromUs :=
    match lastEmail with
    | some le => isOutbound le
    | none => false
  let lastEmailDate := lastEmail.bind (·.date)
  let summary0 := aiResult.map (·.summary)
  let summary :=
    if foundMerged.length > 0 && truthy summary0 then
      some ((mergedPairs.filterMap fun p => jget aiResults p.1).foldl
        (fun s mr =>
          if mr.summary != "" then s ++ " " ++ mr.summary else s)
        (summary0.getD ""))
    else summary0
  let needsResponse := needsResponse4 lastEmail lastEmailFromUs aiResult
  let itemType0 := (aiResult.map (·.itemType)).getD .general
  let subjectLower := lowerStr (firstEmail.subject.getD "")
  let category := (aiResult.map (·.category)).getD data.initialCategory
  let itemType :=
    if category = .customer && itemType0 = .general &&
        poSubjectIndicator4 subjectLower then
      .po_received
    else itemType0
  { threadKey := data.threadKey
    emails := allE
    category := category
    itemType := itemType
    contactEmail := data.contact.email
    contactName :=
      (match aiResult.bind (·.contactName) with
       | some v => some v
       | none => data.contact.name)
    subject := if truthy firstEmail.subject then firstEmail.subject.getD ""
               else "(no subject)"
    summary := summary
    emailCount := allE.length
    lastEmailDate := lastEmailDate
    lastEmailFromUs := lastEmailFromUs
    needsResponse := needsResponse
    poDetails := none
    isSuspicious := false }

/-- categorizeThreads of the part_004 categorizer, over the grouped
thread map and the response map of the external classifier (the
database fetch and the classifier call itself are the input
boundary). -/
def categorizeThreads4 (threadMap : List (String × List Email))
    (aiResults : List (String × AiResult)) : List CThread :=
  let threadsData := threadsDataOf threadMap
  let dataByKey := threadsData.foldl (fun m d => jset m d.threadKey d) []
  let mergedInto := mergedIntoOf dataByKey aiResults
  threadsData.filterMap fun data =>
    if jhas mergedInto data.threadKey then none
    else some (buildThread4 dataByKey aiResults mergedInto data)

/-- The part_005 needsResponse determination: the base value is last
email not from us and the classifier value defaulting to true; then
the safety net forces true for purchase orders and quote requests with
an inbound last email. The itemType argument is the value after the
part_005 safety nets. -/
def needsResponse5 (lastEmailFromUs : Bool) (aiResult : Option AiResult)
    (itemType : ItemT) : Bool :=
  let nr := !lastEmailFromUs && (aiResult.map (·.needsResponse)).getD true
  if !lastEmailFromUs &&
      (itemType = ItemT.po_received || itemType = ItemT.quote_request) then
    true
  else nr

/-! ## Dashboard todo reconciliation (src/dashboard/todo-sync.ts) -/

/-- Status of a dash todo row. -/
inductive TodoStatus where
  | opened | resolvedT | dismissedT
deriving DecidableEq, Repr

/-- The resolvedBy column values. -/
inductive ResolvedBy where
  | manual | email_activity
deriving DecidableEq, Repr

/-- A row of the dash_todos table, with the columns syncDashTodos
reads or writes. Rows are addressed by thread key; the table has a
unique constraint on it, so the id-based updates of the source hit
exactly the row found by the earlier thread-key lookup. -/
structure DashRow where
  threadKey : String
  todoType : String
  category : Category
  itemType : ItemT
  contactEmail : Option String
  contactName : Option String
  subject : Option String
  summary : Option String
  description : String
  firstDetectedAt : Nat
  lastEmailDate : Option Nat
  emailCount : Nat
  needsResponse : Bool
  lastEmailFromUs : Bool
  status : TodoStatus
  resolvedAt : Option Nat
  resolvedBy : Option ResolvedBy
  poDetails : Option PoDetails
  isSuspicious : Bool
  createdAt : Nat
  updatedAt : Nat
deriving DecidableEq, Repr

/-- An identified todo handed to syncDashTodos. -/
structure ITodo where
  threadKey : String
  todoType : String
  description : String
  contactName : Option String
  contactEmail : Option String
  subject : Option String
  originalDate : Option Nat
deriving DecidableEq, Repr

/-- The counters returned by syncDashTodos. -/
structure TodoSyncResult where
  newTodos : Nat
  resolvedTodos : Nat
  updatedThreads : Nat
deriving DecidableEq, Repr

/-- JS a or b on nullable strings: the first truthy one. -/
def orT (a b : Option String) : Option String :=
  if truthy a then a else b

/-- Lookup of the unique row with a thread key. -/
def findRow (rows : List DashRow) (k : String) : Option DashRow :=
  rows.find? fun r => r.threadKey == k

/-- Update the row with a thread key in place. -/
def updateRow (rows : List DashRow) (k : String) (f : DashRow → DashRow) :
    List DashRow :=
  rows.map fun r => if r.threadKey = k then f r else r

/-- Insert with onConflictDoNothing on the unique thread key. -/
def insertRow (rows : List DashRow) (r : DashRow) : List DashRow :=
  if (findRow rows r.threadKey).isSome then rows else rows ++ [r]

/-- Deduplicate keeping first occurrences (the JS Set over the two key
lists). -/
def dedupKeys (l : List String) : List String :=
  l.foldl (fun acc k => if acc.contains k then acc else acc ++ [k]) []

/-- The row inserted for a new todo, open or dismissed variant
according to the sticky dismissal check. -/
def newTodoRow (k : String) (td : ITodo) (t : CThread) (now : Nat)
    (asDismissed : Bool) : DashRow :=
  { threadKey := k
    todoType := td.todoType
    category := t.category
    itemType := t.itemType
    contactEmail := orT td.contactEmail t.contactEmail
    contactName := orT td.contactName t.contactName
    subject := orT td.subject (some t.subject)
    summary := t.summary
    description := td.description
    firstDetectedAt := td.originalDate.getD now
    lastEmailDate := t.lastEmailDate
    emailCount := t.emailCount
    needsResponse := t.needsResponse
    lastEmailFromUs := t.lastEmailFromUs
    status := if asDismissed then .dismissedT else .opened
    resolvedAt := if asDismissed then some now else none
    resolvedBy := if asDismissed then some .manual else none
    poDetails := t.poDetails
    isSuspicious := t.isSuspicious
    createdAt := now
    updatedAt := now }

/-- The metadata update applied to an existing row (the updateData
object of the source): thread metadata always, summary only when the
classifier provided one, the todo fields only when a new todo exists
for a still-open row, poDetails and isSuspicious only when set. -/
def metadataUpdate (t : CThread) (todo : Option ITodo) (ex : DashRow)
    (now : Nat) (r : DashRow) : DashRow :=
  let r1 := { r with lastEmailDate := t.lastEmailDate
                     emailCount := t.emailCount
                     lastEmailFromUs := t.lastEmailFromUs
                     needsResponse := t.needsResponse
                     updatedAt := now }
  let r2 := if truthy t.summary then { r1 with summary := t.summary } else r1
  let r3 :=
    match todo with
    | some td =>
      if ex.status = .opened then
        let ra := { r2 with todoType := td.todoType
                            description := td.description }
        let rb := if truthy td.contactName then
                    { ra with contactName := td.contactName }
                  else ra
        if truthy td.contactEmail then
          { rb with contactEmail := td.contactEmail }
        else rb
      else r2
    | none => r2
  let r4 := if t.poDetails.isSome then { r3 with poDetails := t.poDetails }
            else r3
  if t.isSuspicious then { r4 with isSuspicious := true } else r4

/-- One iteration of the syncDashTodos loop for one thread key.
existingTodo is looked up in the rows fetched before the loop
(rows0), while writes go to the current rows, exactly as in the
source. -/
def syncOneKey (threadsByKey : List (String × CThread))
    (todosByKey : List (String × ITodo)) (dismissed : List String)
    (rows0 : List DashRow) (now : Nat)
    (acc : List DashRow × TodoSyncResult) (k : String) :
    List DashRow × TodoSyncResult :=
  let rows := acc.1
  let res := acc.2
  let thread := jget threadsByKey k
  let todo := jget todosByKey k
  match findRow rows0 k with
  | some ex =>
    if ex.status = .opened && (thread.map (·.lastEmailFromUs)).getD false &&
        todo.isNone then
      (updateRow rows k fun r =>
        { r with status := .resolvedT
                 resolvedAt := some now
                 resolvedBy := some .email_activity
                 lastEmailDate := (thread.map (·.lastEmailDate)).getD none
                 emailCount := (thread.map (·.emailCount)).getD 0
                 lastEmailFromUs := true
                 needsResponse := false
                 updatedAt := now },
       { res with resolvedTodos := res.resolvedTodos + 1 })
    else
      match thread with
      | some t =>
        (updateRow rows k (metadataUpdate t todo ex now),
         { res with updatedThreads := res.updatedThreads + 1 })
      | none => (rows, res)
  | none =>
    match todo, thread with
    | some td, some t =>
      if dismissed.contains k then
        (insertRow rows (newTodoRow k td t now true), res)
      else
        (insertRow rows (newTodoRow k td t now false),
         { res with newTodos := res.newTodos + 1 })
    | _, _ => (rows, res)

/-- syncDashTodos from src/dashboard/todo-sync.ts, over the thread and
todo lists, the dismissed-thread keys and the pre-state of the
dash_todos table. -/
def syncDashTodos (threads : List CThread) (todos : List ITodo)
    (dismissed : List String) (rows0 : List DashRow) (now : Nat) :
    List DashRow × TodoSyncResult :=
  let todosByKey := todos.foldl (fun m t => jset m t.threadKey t) []
  let threadsByKey := threads.foldl (fun m t => jset m t.threadKey t) []
  let allThreadKeys :=
    dedupKeys (threads.map (·.threadKey) ++ todos.map (·.threadKey))
  allThreadKeys.foldl
    (syncOneKey threadsByKey todosByKey dismissed rows0 now)
    (rows0, { newTodos := 0, resolvedTodos := 0, updatedThreads := 0 })

/-! ## QB sync alert manager (src/jobs/run-jobs-report.ts) -/

/-- The alertType column values. -/
inductive AlertType where
  | po_detected | po_detected_with_so | no_qb_customer
  | suspicious_po_email | po_missing_so | so_should_be_closed
deriving DecidableEq, Repr

/-- The alert status column values. -/
inductive AlertStatus where
  | opened | resolvedA | dismissedA
deriving DecidableEq, Repr

/-- A row of the qb_sync_alerts table, with the columns the alert
manager reads or writes. -/
structure AlertRow where
  alertType : AlertType
  threadKey : String
  subject : Option String
  contactEmail : Option String
  contactName : Option String
  detectedAt : Int
  escalatedAt : Option Int
  resolvedAt : Option Int
  resolvedBy : Option String
  status : AlertStatus
  qbCustomerId : Option String
  qbCustomerName : Option String
  matchConfidence : Option Nat
  poNumber : Option String
  poTotal : Option Nat
  salesOrderId : Option String
  salesOrderRef : Option String
  salesOrderTotal : Option Nat
  estimateId : Option String
  estimateRef : Option String
deriving DecidableEq, Repr

/-- A customer match result of the ledger matcher collaborator. -/
structure MatchRes where
  customerId : String
  customerName : String
  confidence : Nat
deriving DecidableEq, Repr

/-- A sales order returned by the ledger document matcher; totalCents
carries the already converted cent amount of the nullable totalAmount
string. -/
structure SoDoc where
  soId : String
  refNumber : String
  totalCents : Option Nat
deriving DecidableEq, Repr

/-- An estimate returned by the ledger document matcher. -/
structure EstDoc where
  estId : String
  refNumber : String
deriving DecidableEq, Repr

/-- The collaborator environment of the alert manager: availability of
the ledger client, the trusted-domain gate, the customer matcher, the
composed document fetch plus sales-order and estimate matchers, and
the PDF analyzer (none models a thrown analysis). -/
structure QbEnv where
  available : Bool
  trusted : String → Bool
  matchCustomer : String → Option String → Option MatchRes
  soFor : String → Option String → Option Nat → Option SoDoc
  estFor : String → Option String → Option Nat → Option EstDoc
  pdfFor : Nat → String → Option (List PoDetails)

/-- The base alert data shared by every Stage 1 alert of a thread. -/
def baseAlertOf (thread : CThread) (contact : Contact) (now : Int) :
    AlertRow :=
  { alertType := .suspicious_po_email
    threadKey := thread.threadKey
    subject := some thread.subject
    contactEmail := contact.email
    contactName := contact.name
    detectedAt := now
    escalatedAt := none
    resolvedAt := none
    resolvedBy := none
    status := .opened
    qbCustomerId := none
    qbCustomerName := none
    matchConfidence := none
    poNumber := none
    poTotal := none
    salesOrderId := none
    salesOrderRef := none
    salesOrderTotal := none
    estimateId := none
    estimateRef := none }

/-- The PO details obtained for a thread: the first email whose raw
attachments column mentions pdf is analyzed; a throw or an empty
result list yields nothing. -/
def poDetailsOf (env : QbEnv) (thread : CThread) : Option PoDetails :=
  match thread.emails.find? (fun e =>
      e.hasAttachments &&
        (match e.attachments with
         | some av => containsSub (lowerStr av.raw) "pdf"
         | none => false)) with
  | some e =>
    match env.pdfFor e.uid e.mailbox with
    | some (d :: _) => some d
    | _ => none
  | none => none

/-- Stage 1 decision for one new PO thread: the alert row created and
whether a ledger customer lookup and a sales-order lookup were
performed. Mirrors the body of the analyzeNewPoEmails loop. -/
def analyzePoThread (env : QbEnv) (now : Int) (thread : CThread) :
    AlertRow × Bool × Bool :=
  let contact := getExternalContact thread.emails
  let base := baseAlertOf thread contact now
  if !truthy contact.email then
    ({ base with alertType := .suspicious_po_email }, false, false)
  else if !env.trusted (contact.email.getD "") then
    ({ base with alertType := .suspicious_po_email }, false, false)
  else
    let poDetails := poDetailsOf env thread
    let base1 :=
      match poDetails with
      | some pd =>
        { base with
            poNumber := pd.poNumber
            poTotal :=
              match pd.total with
              | some t => if t = 0 then none else some (t * 100)
              | none => none }
      | none => base
    if !env.available then
      ({ base1 with alertType := .po_detected }, false, false)
    else
      match env.matchCustomer (contact.email.getD "") (orUndef contact.name) with
      | none => ({ base1 with alertType := .no_qb_customer }, true, false)
      | some mr =>
        let base2 := { base1 with qbCustomerId := some mr.customerId
                                  qbCustomerName := some mr.customerName
                                  matchConfidence := some mr.confidence }
        match env.soFor mr.customerId (orUndef (poDetails.bind (·.poNumber)))
            (orUndefNat (poDetails.bind (·.total))) with
        | some so =>
          ({ base2 with alertType := .po_detected_with_so
                        salesOrderId := some so.soId
                        salesOrderRef := some so.refNumber
                        salesOrderTotal := so.totalCents }, true, true)
        | none =>
          let base3 :=
            match env.estFor mr.customerId
                (orUndef (poDetails.bind (·.poNumber)))
                (orUndefNat (poDetails.bind (·.total))) with
            | some est => { base2 with estimateId := some est.estId
                                       estimateRef := some est.refNumber }
            | none => base2
          ({ base3 with alertType := .po_detected }, true, true)

/-- One step of the analyzeNewPoEmails loop: threads already carrying
an alert are skipped, every other thread creates exactly one Stage 1
alert; the second component records, per processed thread, whether the
customer and sales-order lookups ran. -/
def analyzeStep (env : QbEnv) (existingKeys : List String) (now : Int)
    (acc : List AlertRow × List (String × Bool × Bool)) (t : CThread) :
    List AlertRow × List (String × Bool × Bool) :=
  if existingKeys.contains t.threadKey then acc
  else
    let r := analyzePoThread env now t
    (acc.1 ++ [r.1], acc.2 ++ [(t.threadKey, r.2.1, r.2.2)])

/-- analyzeNewPoEmails, folded over the input threads. -/
def analyzeNewPoEmails (env : QbEnv) (existingKeys : List String)
    (now : Int) (threads : List CThread) :
    List AlertRow × List (String × Bool × Bool) :=
  threads.foldl (analyzeStep env existingKeys now) ([], [])

/-- The four-hour escalation threshold in milliseconds. -/
def ESCALATION_MS : Int := 4 * 60 * 60 * 1000

/-- escalateAlert from the alert manager: set type po_missing_so and
stamp escalatedAt, nothing else. -/
def escalateAlertRow (now : Int) (a : AlertRow) : AlertRow :=
  { a with alertType := .po_missing_so, escalatedAt := some now }

/-- resolveAlert from the alert manager. -/
def resolveAlertRow (now : Int) (resolver : String) (a : AlertRow) :
    AlertRow :=
  { a with status := .resolvedA, resolvedAt := some now
           resolvedBy := some resolver }

/-- dismissAlert from the alert manager. -/
def dismissAlertRow (now : Int) (a : AlertRow) : AlertRow :=
  { a with status := .dismissedA, resolvedAt := some now
           resolvedBy := some "manual" }

/-- The candidate filter of checkEscalations: open po_detected alerts
detected strictly before the cutoff and not already escalated. -/
def escalationCandidate (now : Int) (a : AlertRow) : Bool :=
  a.alertType == .po_detected && a.status == .opened &&
    decide (a.detectedAt < now - ESCALATION_MS) && a.escalatedAt == none

/-- The checkEscalations treatment of one row: non-candidates are left
alone; with the ledger unavailable nothing is written; a candidate
without a customer id is escalated without re-verification; otherwise
the ledger is re-checked and the alert resolves when a sales order now
exists, else escalates. -/
def checkEscalationRow (env : QbEnv) (now : Int) (a : AlertRow) : AlertRow :=
  if !escalationCandidate now a then a
  else if !env.available then a
  else if !truthy a.qbCustomerId then escalateAlertRow now a
  else
    match env.soFor (a.qbCustomerId.getD "") (orUndef a.poNumber)
        (match a.poTotal with
         | some t => if t = 0 then none else some (t / 100)
         | none => none) with
    | some _ => resolveAlertRow now "auto" a
    | none => escalateAlertRow now a

/-- checkEscalations from the alert manager, applied to the alert
table. -/
def checkEscalations (env : QbEnv) (now : Int) (alerts : List AlertRow) :
    List AlertRow :=
  alerts.map (checkEscalationRow env now)

/-- The checkAndResolveAlerts treatment of one row: open po_detected
and po_missing_so alerts resolve when a sales order now matches, open
no_qb_customer alerts resolve when a customer now matches; the alert
type is never changed. -/
def autoResolveRow (env : QbEnv) (now : Int) (a : AlertRow) : AlertRow :=
  if !env.available then a
  else if (a.alertType == .po_detected || a.alertType == .po_missing_so) &&
      a.status == .opened then
    if !truthy a.qbCustomerId then a
    else
      match env.soFor (a.qbCustomerId.getD "") (orUndef a.poNumber)
          (match a.poTotal with
           | some t => if t = 0 then none else some (t / 100)
           | none => none) with
      | some _ => resolveAlertRow now "auto" a
      | none => a
  else if a.alertType == .no_qb_customer && a.status == .opened then
    if !truthy a.contactEmail then a
    else
      match env.matchCustomer (a.contactEmail.getD "")
          (orUndef a.contactName) with
      | some _ => resolveAlertRow now "auto" a
      | none => a
  else a

/-! ## Hourly check checkpointing (runHourlyCheck) -/

/-- Observable side effects of one hourly run, in order. -/
inductive RunEvent where
  | evEmailSent
  | evAlertsMarked
  | evCheckpointSaved (t : Int)
deriving DecidableEq, Repr

/-- The persisted job check state: the last-job-check timestamp row of
email_sync_metadata. -/
structure JobState where
  checkpoint : Option Int
deriving DecidableEq, Repr

/-- Inputs of one hourly run: the preview flag, whether the SMTP
dispatch succeeds, and the sizes of the alert activity of the run. -/
structure HourlyRun where
  preview : Bool
  sendOk : Bool
  newAlertsN : Nat
  escalationsN : Nat
  resolvedN : Nat
deriving DecidableEq, Repr

/-- The hasContent test of runHourlyCheck. -/
def hasContent (r : HourlyRun) : Bool :=
  decide (r.newAlertsN > 0) || decide (r.escalationsN > 0) ||
    decide (r.resolvedN > 0)

/-- Start of the hourly window: the stored checkpoint, or two hours
back on the first run. -/
def hourlyWindowStart (st : JobState) (now : Int) : Int :=
  st.checkpoint.getD (now - 2 * 60 * 60 * 1000)

/-- runHourlyCheck from src/jobs/run-jobs-report.ts, reduced to its
checkpoint and dispatch behaviour: with no activity the checkpoint is
saved directly (outside preview); with activity and outside preview
the email is sent first and the checkpoint is saved only after the
send and the notified marks succeed; a failed send leaves the state
unchanged and the run errors. Returns the new state, the ordered
effect list and the error flag. -/
def runHourlyCheck (st : JobState) (now : Int) (r : HourlyRun) :
    JobState × List RunEvent × Bool :=
  let windowEnd := now
  if !hasContent r then
    if !r.preview then
      ({ checkpoint := some windowEnd }, [.evCheckpointSaved windowEnd], false)
    else (st, [], false)
  else if r.preview then (st, [], false)
  else if r.sendOk then
    ({ checkpoint := some windowEnd },
     [.evEmailSent, .evAlertsMarked, .evCheckpointSaved windowEnd], false)
  else (st, [], true)

/-! ## Concrete instances used by counterexamples and witnesses -/

/-- Insertion into a sorted list of numbers. -/
def insNat (n : Nat) : List Nat → List Nat
  | [] => [n]
  | m :: t => if m ≤ n then m :: insNat n t else n :: m :: t

/-- Sort a list of numbers ascending. -/
def isortNat (l : List Nat) : List Nat :=
  l.foldl (fun acc n => insNat n acc) []

/-- The sorted uid set of the thread containing the message with a
given uid: the partition block of that message. -/
def threadMatesUids (m : List (String × List Email)) (u : Nat) : List Nat :=
  match m.find? (fun p => p.2.any fun e => e.uid == u) with
  | some p => isortNat (p.2.map (·.uid))
  | none => []

/-- Boolean pairwise check on a list of emails. -/
def pairwiseB (p : Email → Email → Bool) : List Email → Bool
  | [] => true
  | a :: t => t.all (p a) && pairwiseB p t

/-- The ordering claimed for messages inside a thread: ascending
timestamps, undated messages last. -/
def sortedUndatedLastB (l : List Email) : Bool :=
  pairwiseB
    (fun a b =>
      match a.date, b.date with
      | some x, some y => decide (x ≤ y)
      | none, some _ => false
      | _, _ => true)
    l

/-- C1 counterexample messages: x and y root two threads; a and b share
a third thread (common references t) while a replies to x and b
replies to y, so the first-hit merge scan makes the shared thread
merge into x or into y depending on which of a and b comes first. -/
def exC1x : Email :=
  { defaultEmail with uid := 1, messageId := some "x", date := some 1 }

/-- C1 counterexample message y. -/
def exC1y : Email :=
  { defaultEmail with uid := 2, messageId := some "y", date := some 2 }

/-- C1 counterexample message a: references t, replies to x. -/
def exC1a : Email :=
  { defaultEmail with
    uid := 3, messageId := some "a",
    inReplyTo := some "x", references := some "t", date := some 3 }

/-- C1 counterexample message b: references t, replies to y. -/
def exC1b : Email :=
  { defaultEmail with
    uid := 4, messageId := some "b",
    inReplyTo := some "y", references := some "t", date := some 4 }

/-- C9 counterexample: a dated message in a thread. -/
def exC9d : Email :=
  { defaultEmail with
    uid := 1, messageId := some "d",
    references := some "r", date := some 5 }

/-- C9 counterexample: an undated message in the same thread. -/
def exC9u : Email :=
  { defaultEmail with
    uid := 2, messageId := some "u0",
    references := some "r" }

/-- C5 counterexample: an inbound message that is a bare strict
acknowledgment yet carries a real PDF attachment. -/
def exC5email : Email :=
  { defaultEmail with
    uid := 1, fromAddress := some "customer@acme.com",
    subject := some "Order docs", bodyText := some "Thanks!",
    hasAttachments := true, date := some 10,
    attachments := some (.parsed "po json"
      [{ filename := some "po.pdf", contentType := some "application/pdf",
         size := some 50000 }]) }

/-- C5 witness: an inbound message with a real attachment whose body is
not an acknowledgment. -/
def exC5bemail : Email :=
  { defaultEmail with
    uid := 2, fromAddress := some "customer@acme.com",
    subject := some "Order docs", bodyText := some "Please see the attached order.",
    hasAttachments := true, date := some 11,
    attachments := some (.parsed "po json"
      [{ filename := some "po.pdf", contentType := some "application/pdf",
         size := some 50000 }]) }

/-- C6 counterexample: an inbound purchase-order email; the classifier
answers itemType general and needsResponse false. -/
def exC6email : Email :=
  { defaultEmail with
    uid := 1, fromAddress := some "buyer@client.com",
    subject := some "po#44521 attached", bodyText := some "please see attached",
    date := some 3 }

/-- C6 counterexample classifier response. -/
def exC6ai : AiResult :=
  { category := .customer, itemType := .general, contactName := none,
    summary := "po thread", needsResponse := false, relatedTo := none }

/-- C4 counterexample: the original inbound request. -/
def exC4in1 : Email :=
  { defaultEmail with
    uid := 1, fromAddress := some "cust@acme.com",
    subject := some "Quote request", date := some 100,
    bodyText := some "Can you quote 5 widgets?" }

/-- C4 counterexample: our outbound reply, after the detection point. -/
def exC4out : Email :=
  { defaultEmail with
    uid := 2,
    fromAddress := some "sales@masprecisionparts.com",
    mailbox := "Sent", subject := some "Re: Quote request", date := some 200 }

/-- C4 counterexample: the trailing inbound acknowledgment. -/
def exC4in2 : Email :=
  { defaultEmail with
    uid := 3, fromAddress := some "cust@acme.com",
    subject := some "Re: Quote request", date := some 300,
    bodyText := some "Thanks!" }

/-- C4 counterexample thread: the reconciliation input for the thread
with our reply followed by the trailing inbound acknowledgment. The
direction flag is computed by the embedded isLastEmailFromUs. -/
def exC4thread : CThread :=
  { threadKey := "k4", emails := [exC4in1, exC4out, exC4in2],
    category := .customer, itemType := .general,
    contactEmail := some "cust@acme.com", contactName := none,
    subject := "Quote request", summary := none, emailCount := 3,
    lastEmailDate := some 300,
    lastEmailFromUs := isLastEmailFromUs [exC4in1, exC4out, exC4in2],
    needsResponse := false, poDetails := none, isSuspicious := false }

/-- C4 counterexample: the open todo row created at the detection
point of the original request. -/
def exC4row : DashRow :=
  { threadKey := "k4", todoType := "general_unanswered",
    category := .customer, itemType := .general,
    contactEmail := some "cust@acme.com", contactName := none,
    subject := some "Quote request", summary := none,
    description := "Customer is waiting for a quote",
    firstDetectedAt := 100, lastEmailDate := some 100, emailCount := 1,
    needsResponse := true, lastEmailFromUs := false, status := .opened,
    resolvedAt := none, resolvedBy := none, poDetails := none,
    isSuspicious := false, createdAt := 100, updatedAt := 100 }

/-- C4 witness thread: same thread after a run where the last email is
ours and no todo is identified, so the reconciliation resolves it. -/
def exC4wthread : CThread :=
  { exC4thread with
    emails := [exC4in1, exC4out],
    lastEmailDate := some 200, emailCount := 2,
    lastEmailFromUs := isLastEmailFromUs [exC4in1, exC4out] }

/-- C7 witness thread: satisfies the todo creation predicate. -/
def exC7thread : CThread :=
  { threadKey := "k7", emails := [exC4in1],
    category := .customer, itemType := .general,
    contactEmail := some "cust@acme.com", contactName := none,
    subject := "Quote request", summary := none, emailCount := 1,
    lastEmailDate := some 100, lastEmailFromUs := false,
    needsResponse := true, poDetails := none, isSuspicious := false }

/-- C7 witness identified todo for the dismissed thread. -/
def exC7todo : ITodo :=
  { threadKey := "k7", todoType := "general_unanswered",
    description := "Customer is waiting for a quote",
    contactName := none, contactEmail := some "cust@acme.com",
    subject := some "Quote request", originalDate := some 100 }

/-- Concrete collaborator environment used by the Stage 1 witness: the
ledger is available, one trusted sender, one matching customer with a
matching sales order. -/
def exQbEnv : QbEnv :=
  { available := true,
    trusted := fun e => e = "buyer@client.com",
    matchCustomer := fun e _ =>
      if e = "buyer@client.com" then
        some { customerId := "C1", customerName := "Client", confidence := 5 }
      else none,
    soFor := fun cid _ _ =>
      if cid = "C1" then
        some { soId := "SO9", refNumber := "9", totalCents := some 100 }
      else none,
    estFor := fun _ _ _ => none,
    pdfFor := fun _ _ => none }

/-- C2 witness thread: a purchase-order thread from the trusted
sender. -/
def exC2thread : CThread :=
  { threadKey := "k2", emails := [exC6email],
    category := .customer, itemType := .po_received,
    contactEmail := some "buyer@client.com", contactName := none,
    subject := "po#44521 attached", summary := none, emailCount := 1,
    lastEmailDate := some 3, lastEmailFromUs := false,
    needsResponse := true, poDetails := none, isSuspicious := false }

/-- C3 counterexample environment: the ledger is available and a
matching sales order exists for every lookup. -/
def exC3env : QbEnv :=
  { available := true,
    trusted := fun _ => true,
    matchCustomer := fun _ _ => none,
    soFor := fun _ _ _ =>
      some { soId := "SO1", refNumber := "1", totalCents := none },
    estFor := fun _ _ _ => none,
    pdfFor := fun _ _ => none }

/-- C3 counterexample alert: an open po_detected alert five hours old
with no recorded ledger customer id. -/
def exC3alert : AlertRow :=
  { baseAlertOf exC2thread { email := some "buyer@client.com", name := none } 0
    with alertType := .po_detected }

/-- C3 witness alert: an open po_detected alert five hours old with a
recorded ledger customer id. -/
def exC3walert : AlertRow :=
  { exC3alert with qbCustomerId := some "C1" }

/-- The evaluation time of the C3 scenarios: five hours past
detection. -/
def exC3now : Int := 18000000

/-- A default categorized thread, used only to take the head of
concrete categorizer outputs in witnesses. -/
def defaultCThread : CThread :=
  { threadKey := "", emails := [], category := .other, itemType := .general
    contactEmail := none, contactName := none, subject := "", summary := none
    emailCount := 0, lastEmailDate := none, lastEmailFromUs := false
    needsResponse := true, poDetails := none, isSuspicious := false }

/-- The concrete categorizer output for the C5 scenario. -/
def exC5result : CThread :=
  (categorizeThreads4 [("k5", [exC5email])] []).headD defaultCThread

/-- The concrete categorizer output for the C6 scenario. -/
def exC6result : CThread :=
  (categorizeThreads4 [("k6", [exC6email])] [("k6", exC6ai)]).headD
    defaultCThread

/-- C8 witness run: alert activity present, dispatch fails. -/
def exC8run : HourlyRun :=
  { preview := false, sendOk := false, newAlertsN := 1, escalationsN := 0
    resolvedN := 0 }

/-- C8 witness run with a succeeding dispatch. -/
def exC8runOk : HourlyRun :=
  { exC8run with sendOk := true }

/-- C8 witness job state with a stored checkpoint. -/
def exC8state : JobState :=
  { checkpoint := some 500 }

/-- Merge maps reachable by the threader: built from the empty map by
appending entries whose key and value are both absent from the map so
far and differ from each other. Both merge maps of
groupEmailsIntoThreads are built this way, which is what makes their
chase loops terminate. -/
inductive BuiltMap : List (String × String) → Prop where
  | nil : BuiltMap []
  | snoc (m : List (String × String)) (k v : String) :
      BuiltMap m → jget m k = none → jget m v = none → v ≠ k →
      BuiltMap (m ++ [(k, v)])

/-! ## Lemmas about the JS-Map model -/

theorem jget_append {α : Type} (m l : List (String × α)) (q : String) :
    jget (m ++ l) q =
      match jget m q with
      | some w => some w
      | none => jget l q := by
  induction m with
  | nil => rfl
  | cons p t ih =>
    obtain ⟨k, v⟩ := p
    by_cases h : k = q
    · simp [jget, h]
    · simp [jget, h, ih]

theorem jget_append_of_none {α : Type} (m l : List (String × α))
    (q : String) (h : jget m q = none) : jget (m ++ l) q = jget l q := by
  rw [jget_append, h]

theorem jget_append_of_some {α : Type} (m l : List (String × α))
    (q : String) (w : α) (h : jget m q = some w) :
    jget (m ++ l) q = some w := by
  rw [jget_append, h]

theorem jget_eq_none_iff {α : Type} (m : List (String × α)) (q : String) :
    jget m q = none ↔ q ∉ jkeys m := by
  induction m with
  | nil => simp [jget, jkeys]
  | cons p t ih =>
    obtain ⟨k, v⟩ := p
    by_cases h : k = q
    · subst h
      simp [jget, jkeys]
    · have h2 : ¬ q = k := fun hh => h hh.symm
      simp only [jget, if_neg h, jkeys, List.map_cons, List.mem_cons]
      rw [ih]
      simp [jkeys, h2]

theorem jkeys_jset {α : Type} (m : List (String × α)) (k : String) (v : α) :
    jkeys (jset m k v) =
      if k ∈ jkeys m then jkeys m else jkeys m ++ [k] := by
  induction m with
  | nil => simp [jset, jkeys]
  | cons p t ih =>
    obtain ⟨k1, v1⟩ := p
    by_cases hk : k1 = k
    · subst hk
      simp [jset, jkeys]
    · have hk2 : ¬ k = k1 := fun hh => hk hh.symm
      simp only [jset, if_neg hk, jkeys, List.map_cons]
      rw [show List.map Prod.fst (jset t k v) = jkeys (jset t k v) from rfl,
        ih]
      by_cases hm : k ∈ List.map Prod.fst t
      · simp [jkeys, hm]
      · simp [jkeys, hm, hk2]

theorem jkeys_nodup_jset {α : Type} (m : List (String × α)) (k : String)
    (v : α) (h : (jkeys m).Nodup) : (jkeys (jset m k v)).Nodup := by
  rw [jkeys_jset]
  by_cases hm : k ∈ jkeys m
  · simpa [hm] using h
  · simp [hm, List.nodup_append, h]

theorem jset_eq_append {α : Type} (m : List (String × α)) (k : String)
    (v : α) (h : jget m k = none) : jset m k v = m ++ [(k, v)] := by
  induction m with
  | nil => rfl
  | cons p t ih =>
    obtain ⟨k1, v1⟩ := p
    by_cases hk : k1 = k
    · simp [jget, hk] at h
    · simp only [jget, if_neg hk] at h
      simp [jset, hk, ih h]

theorem jget_jset {α : Type} (m : List (String × α)) (k : String) (v : α)
    (q : String) :
    jget (jset m k v) q = if k = q then some v else jget m q := by
  induction m with
  | nil => simp [jset, jget]
  | cons p t ih =>
    obtain ⟨k1, v1⟩ := p
    by_cases hk : k1 = k
    · subst hk
      by_cases hq : k1 = q <;> simp [jset, jget, hq]
    · by_cases hq : k1 = q
      · subst hq
        have hne : ¬ k = k1 := fun hh => hk hh.symm
        simp [jset, hk, jget, hne]
      · simp [jset, hk, jget, hq, ih]

/-! ## Termination of the merge-chain chase (infrastructure for C10) -/

theorem chase_stab (m : List (String × String)) (x : String)
    (h : jget m x = none) : ∀ n, chase m n x = x := by
  intro n
  cases n with
  | zero => rfl
  | succ k => simp [chase, h]

theorem chase_fix (m : List (String × String)) :
    ∀ (n k : Nat) (x : String), jget m (chase m n x) = none →
      chase m (n + k) x = chase m n x := by
  intro n
  induction n with
  | zero =>
    intro k x h
    simp only [chase] at h
    simpa [chase] using chase_stab m x h k
  | succ n ih =>
    intro k x h
    cases hx : jget m x with
    | none =>
      have h1 : chase m (n + 1) x = x := chase_stab m x hx (n + 1)
      have h2 : chase m (n + 1 + k) x = x := chase_stab m x hx (n + 1 + k)
      rw [h1, h2]
    | some v =>
      have hunf : chase m (n + 1) x = chase m n v := by simp [chase, hx]
      have hunf2 : chase m (n + 1 + k) x = chase m (n + k) v := by
        have : n + 1 + k = (n + k) + 1 := by omega
        rw [this]
        simp [chase, hx]
      rw [hunf] at h
      rw [hunf, hunf2]
      exact ih k v h

theorem chase_snoc (m : List (String × String)) (k v : String)
    (hv : jget m v = none) (hvk : v ≠ k) :
    ∀ (fuel : Nat) (x : String), jget m (chase m fuel x) = none →
      jget (m ++ [(k, v)]) (chase (m ++ [(k, v)]) (fuel + 1) x) = none := by
  have hkv : ¬ (k = v) := fun hh => hvk hh.symm
  have hv2 : jget (m ++ [(k, v)]) v = none := by
    rw [jget_append_of_none m _ v hv]
    simp [jget, hkv]
  intro fuel
  induction fuel with
  | zero =>
    intro x h
    simp only [chase] at h
    cases hq : jget (m ++ [(k, v)]) x with
    | none =>
      rw [show chase (m ++ [(k, v)]) 1 x = x from by simp [chase, hq]]
      exact hq
    | some w =>
      have hq2 := hq
      rw [jget_append_of_none m _ x h] at hq2
      have hkx : k = x ∧ v = w := by
        by_cases hh : k = x
        · exact ⟨hh, by simpa [jget, hh] using hq2⟩
        · simp [jget, hh] at hq2
      rw [show chase (m ++ [(k, v)]) 1 x = w from by simp [chase, hq]]
      rw [← hkx.2]
      exact hv2
  | succ fuel ih =>
    intro x h
    cases hq : jget (m ++ [(k, v)]) x with
    | none =>
      rw [show chase (m ++ [(k, v)]) (fuel + 1 + 1) x = x from by
        simp [chase, hq]]
      exact hq
    | some w =>
      rw [show chase (m ++ [(k, v)]) (fuel + 1 + 1) x =
          chase (m ++ [(k, v)]) (fuel + 1) w from by simp [chase, hq]]
      cases hx : jget m x with
      | some u =>
        have hwu : u = w := by
          rw [jget_append_of_some m _ x u hx] at hq
          exact Option.some.inj hq
        subst hwu
        have hh : chase m (fuel + 1) x = chase m fuel u := by
          simp [chase, hx]
        rw [hh] at h
        exact ih u h
      | none =>
        have hq2 := hq
        rw [jget_append_of_none m _ x hx] at hq2
        have hkx : k = x ∧ v = w := by
          by_cases hh : k = x
          · exact ⟨hh, by simpa [jget, hh] using hq2⟩
          · simp [jget, hh] at hq2
        rw [← hkx.2, chase_stab _ _ hv2]
        exact hv2

theorem builtmap_chase (m : List (String × String)) (hb : BuiltMap m) :
    ∀ x, jget m (chase m m.length x) = none := by
  induction hb with
  | nil => intro x; simp [chase, jget]
  | snoc m k v hb hk hv hvk ih =>
    intro x
    have hlen : (m ++ [(k, v)]).length = m.length + 1 := by simp
    rw [hlen]
    exact chase_snoc m k v hv hvk m.length x (ih x)

theorem pass2target_spec (mid tmm : List (String × String)) (tid : String)
    (temails : List Email) (hb : BuiltMap tmm) :
    jget tmm (pass2target mid tmm tid temails) = none ∨
      pass2target mid tmm tid temails = tid := by
  unfold pass2target
  cases temails.find? (fun e =>
      truthy e.inReplyTo &&
        (match jget mid (e.inReplyTo.getD "") with
         | some rt => rt != tid
         | none => false)) with
  | none => exact Or.inr rfl
  | some e => exact Or.inl (builtmap_chase tmm hb _)

theorem pass2_built (mid : List (String × String)) :
    ∀ (threads : List (String × List Email))
      (acc : List (String × List Email) × List (String × String)),
      BuiltMap acc.2 → (∀ p ∈ threads, jget acc.2 p.1 = none) →
      (jkeys threads).Nodup →
      BuiltMap (threads.foldl (pass2step mid) acc).2 := by
  intro threads
  induction threads with
  | nil => intro acc h1 _ _; exact h1
  | cons p rest ih =>
    intro acc h1 h2 h3
    obtain ⟨tid, temails⟩ := p
    simp only [List.foldl_cons]
    have htid : jget acc.2 tid = none := h2 (tid, temails) (by simp)
    have hrestkeys : tid ∉ jkeys rest := by
      simp only [jkeys, List.map_cons, List.nodup_cons] at h3
      simpa [jkeys] using h3.1
    have h3r : (jkeys rest).Nodup := by
      simp only [jkeys, List.map_cons, List.nodup_cons] at h3
      simpa [jkeys] using h3.2
    by_cases heq : pass2target mid acc.2 tid temails = tid
    · have hstep : (pass2step mid acc (tid, temails)).2 = acc.2 := by
        simp [pass2step, heq]
      apply ih
      · rw [hstep]; exact h1
      · intro q hq; rw [hstep]; exact h2 q (by simp [hq])
      · exact h3r
    · have htgt : jget acc.2 (pass2target mid acc.2 tid temails) = none := by
        rcases pass2target_spec mid acc.2 tid temails h1 with h | h
        · exact h
        · exact absurd h heq
      have hset : jset acc.2 tid (pass2target mid acc.2 tid temails) =
          acc.2 ++ [(tid, pass2target mid acc.2 tid temails)] :=
        jset_eq_append _ _ _ htid
      have hstep : (pass2step mid acc (tid, temails)).2 =
          acc.2 ++ [(tid, pass2target mid acc.2 tid temails)] := by
        simp only [pass2step, bne_iff_ne, ne_eq, heq, not_false_eq_true,
          if_true, if_pos]
        exact hset
      apply ih
      · rw [hstep]
        exact BuiltMap.snoc _ _ _ h1 htid htgt heq
      · intro q hq
        rw [hstep, jget_append_of_none _ _ _ (h2 q (by simp [hq]))]
        have hne : ¬ tid = q.1 := by
          intro hh
          exact hrestkeys (by
            simp only [jkeys, List.mem_map]
            exact ⟨q, hq, hh.symm⟩)
        simp [jget, hne]
      · exact h3r

theorem foldl_pushBucket_nodup (emails : List Email) :
    ∀ (acc : List (String × List Email) × List (String × String)),
      (jkeys acc.1).Nodup → (jkeys (emails.foldl pass1step acc).1).Nodup := by
  induction emails with
  | nil => intro acc h; exact h
  | cons e rest ih =>
    intro acc h
    simp only [List.foldl_cons]
    apply ih
    exact jkeys_nodup_jset _ _ _ h

theorem pass1_keys_nodup (emails : List Email) :
    (jkeys (pass1 emails).1).Nodup := by
  unfold pass1
  exact foldl_pushBucket_nodup emails ([], []) (by simp [jkeys])

theorem foldl_pass2_nodup (mid : List (String × String))
    (threads : List (String × List Email)) :
    ∀ (acc : List (String × List Email) × List (String × String)),
      (jkeys acc.1).Nodup →
      (jkeys (threads.foldl (pass2step mid) acc).1).Nodup := by
  induction threads with
  | nil => intro acc h; exact h
  | cons p rest ih =>
    intro acc h
    simp only [List.foldl_cons]
    apply ih
    exact jkeys_nodup_jset _ _ _ h

theorem threadMergeMap_built (emails : List Email) :
    BuiltMap (threadMergeMapOf emails) := by
  unfold threadMergeMapOf pass2
  apply pass2_built
  · exact BuiltMap.nil
  · intro p _; rfl
  · exact pass1_keys_nodup emails

theorem pass3a_built :
    ∀ (merged : List (String × List Email))
      (acc : List (String × String) × List (String × String)),
      BuiltMap acc.2 → (∀ p ∈ merged, jget acc.2 p.1 = none) →
      (∀ s t, jget acc.1 s = some t →
        jget acc.2 t = none ∧ t ∉ jkeys merged) →
      (jkeys merged).Nodup →
      BuiltMap (merged.foldl pass3aStep acc).2 := by
  intro merged
  induction merged with
  | nil => intro acc h1 _ _ _; exact h1
  | cons p rest ih =>
    intro acc h1 h2 h3 h4
    obtain ⟨tid, temails⟩ := p
    simp only [List.foldl_cons]
    have htid : jget acc.2 tid = none := h2 (tid, temails) (by simp)
    have hrestkeys : tid ∉ jkeys rest := by
      simp only [jkeys, List.map_cons, List.nodup_cons] at h4
      simpa [jkeys] using h4.1
    have h4r : (jkeys rest).Nodup := by
      simp only [jkeys, List.map_cons, List.nodup_cons] at h4
      simpa [jkeys] using h4.2
    set ns := normalizeSubject (match temails.head? with
      | some e => e.subject
      | none => none) with hns
    by_cases hlong : (ns != "" && decide (ns.length > 5)) = true
    · cases hex : jget acc.1 ns with
      | some existing =>
        have hstep : pass3aStep acc (tid, temails) =
            (acc.1, jset acc.2 tid existing) := by
          simp only [pass3aStep, ← hns, hlong, if_pos, hex]
        have hE := h3 ns existing hex
        have hne : existing ≠ tid := by
          intro hh
          exact hE.2 (by simp [jkeys, hh])
        have hset : jset acc.2 tid existing = acc.2 ++ [(tid, existing)] :=
          jset_eq_append _ _ _ htid
        rw [hstep]
        apply ih
        · simp only [hset]
          exact BuiltMap.snoc _ _ _ h1 htid hE.1 hne
        · intro q hq
          simp only [hset,
            jget_append_of_none _ _ _ (h2 q (by simp [hq]))]
          have hne2 : ¬ tid = q.1 := by
            intro hh
            exact hrestkeys (by
              simp only [jkeys, List.mem_map]
              exact ⟨q, hq, hh.symm⟩)
          simp [jget, hne2]
        · intro s t hst
          have hold := h3 s t hst
          have htne : ¬ tid = t := by
            intro hh
            exact hold.2 (by simp [jkeys, hh.symm])
          constructor
          · simp only [hset, jget_append_of_none _ _ _ hold.1]
            simp [jget, htne]
          · intro hmem
            have : t ∈ jkeys ((tid, temails) :: rest) := by
              simp [jkeys] at hmem ⊢
              exact Or.inr hmem
            exact hold.2 this
        · exact h4r
      | none =>
        have hstep : pass3aStep acc (tid, temails) =
            (jset acc.1 ns tid, acc.2) := by
          simp only [pass3aStep, ← hns, hlong, if_pos, hex]
        rw [hstep]
        apply ih
        · exact h1
        · intro q hq; exact h2 q (by simp [hq])
        · intro s t hst
          rw [jget_jset] at hst
          by_cases hs : ns = s
          · rw [if_pos hs] at hst
            have ht : t = tid := (Option.some.inj hst).symm
            subst ht
            exact ⟨htid, hrestkeys⟩
          · rw [if_neg hs] at hst
            have hold := h3 s t hst
            refine ⟨hold.1, fun hmem => hold.2 ?_⟩
            simp [jkeys] at hmem ⊢
            exact Or.inr hmem
        · exact h4r
    · have hstep : pass3aStep acc (tid, temails) = acc := by
        simp only [pass3aStep, ← hns]
        simp [hlong]
      rw [hstep]
      apply ih
      · exact h1
      · intro q hq; exact h2 q (by simp [hq])
      · intro s t hst
        have hold := h3 s t hst
        refine ⟨hold.1, fun hmem => hold.2 ?_⟩
        simp [jkeys] at hmem ⊢
        exact Or.inr hmem
      · exact h4r

theorem subjectMergeMap_built (emails : List Email) :
    BuiltMap (subjectMergeMapOf emails) := by
  unfold subjectMergeMapOf pass3a
  apply pass3a_built
  · exact BuiltMap.nil
  · intro p _; rfl
  · intro s t hst; simp [jget] at hst
  · exact foldl_pass2_nodup _ _ ([], []) (by simp [jkeys])

/-- Claim C10: for every input message set, including sets with
malformed or cyclic reference chains, groupEmailsIntoThreads
terminates in bounded steps. Both merge maps the algorithm builds are
BuiltMap (every entry added with a fresh key and an already resolved
target), every merge-chain chase reaches an unmapped key within as
many steps as the map has entries (the while condition of the source
loop becomes false), and giving the chase any extra fuel does not
change its result, so the loops never run forever. The invariant holds
at every intermediate map as well (it is the induction invariant of
pass2_built and pass3a_built), so every chase the passes perform
terminates. -/
theorem c10_merge_chains_terminate (emails : List Email) :
    BuiltMap (threadMergeMapOf emails) ∧
    BuiltMap (subjectMergeMapOf emails) ∧
    (∀ x, jget (threadMergeMapOf emails)
      (chase (threadMergeMapOf emails) (threadMergeMapOf emails).length x) =
        none) ∧
    (∀ x, jget (subjectMergeMapOf emails)
      (chase (subjectMergeMapOf emails) (subjectMergeMapOf emails).length x) =
        none) ∧
    (∀ x k, chase (threadMergeMapOf emails)
        ((threadMergeMapOf emails).length + k) x =
      chase (threadMergeMapOf emails) (threadMergeMapOf emails).length x) ∧
    (∀ x k, chase (subjectMergeMapOf emails)
        ((subjectMergeMapOf emails).length + k) x =
      chase (subjectMergeMapOf emails) (subjectMergeMapOf emails).length x) := by
  have h1 := threadMergeMap_built emails
  have h2 := subjectMergeMap_built emails
  refine ⟨h1, h2, builtmap_chase _ h1, builtmap_chase _ h2, ?_, ?_⟩
  · intro x k
    exact chase_fix _ _ k x (builtmap_chase _ h1 x)
  · intro x k
    exact chase_fix _ _ k x (builtmap_chase _ h2 x)

/-! ## Bucket bookkeeping preserves the message multiset (for C1) -/

theorem allEmails_cons (k : String) (v : List Email)
    (t : List (String × List Email)) :
    allEmails ((k, v) :: t) = v ++ allEmails t := by
  simp [allEmails]

theorem allEmails_push (m : List (String × List Email)) (k : String)
    (l : List Email) :
    (allEmails (jset m k ((jget m k).getD [] ++ l))).Perm
      (allEmails m ++ l) := by
  induction m with
  | nil =>
    simp [jget, jset, allEmails]
  | cons p t ih =>
    obtain ⟨k1, v1⟩ := p
    by_cases hk : k1 = k
    · subst hk
      simp [jget, jset, allEmails_cons, List.append_assoc]
      exact List.Perm.append_left v1 List.perm_append_comm
    · simp only [jget, if_neg hk, jset, if_neg hk, allEmails_cons]
      have hperm := List.Perm.append_left v1 ih
      rw [List.append_assoc]
      exact hperm

theorem pass1_fold_perm (emails : List Email) :
    ∀ (acc : List (String × List Email) × List (String × String)),
      (allEmails (emails.foldl pass1step acc).1).Perm
        (allEmails acc.1 ++ emails) := by
  induction emails with
  | nil => intro acc; simp
  | cons e rest ih =>
    intro acc
    simp only [List.foldl_cons]
    refine (ih (pass1step acc e)).trans ?_
    have h1 : (allEmails (pass1step acc e).1).Perm
        (allEmails acc.1 ++ [e]) := by
      simpa [pass1step, pushBucket] using
        allEmails_push acc.1 (threadIdOf e) [e]
    refine (List.Perm.append_right rest h1).trans ?_
    simp

theorem pass2_fold_perm (mid : List (String × String))
    (threads : List (String × List Email)) :
    ∀ (acc : List (String × List Email) × List (String × String)),
      (allEmails (threads.foldl (pass2step mid) acc).1).Perm
        (allEmails acc.1 ++ allEmails threads) := by
  induction threads with
  | nil => intro acc; simp [allEmails]
  | cons p rest ih =>
    intro acc
    obtain ⟨tid, temails⟩ := p
    simp only [List.foldl_cons]
    refine (ih (pass2step mid acc (tid, temails))).trans ?_
    have h1 : (allEmails (pass2step mid acc (tid, temails)).1).Perm
        (allEmails acc.1 ++ temails) := by
      simpa [pass2step, pushBucketAll] using
        allEmails_push acc.1 _ temails
    refine (List.Perm.append_right (allEmails rest) h1).trans ?_
    rw [allEmails_cons, List.append_assoc]

theorem pass3b_fold_perm (smm : List (String × String))
    (merged : List (String × List Email)) :
    ∀ (acc : List (String × List Email)),
      (allEmails (merged.foldl (pass3bStep smm) acc)).Perm
        (allEmails acc ++ allEmails merged) := by
  induction merged with
  | nil => intro acc; simp [allEmails]
  | cons p rest ih =>
    intro acc
    obtain ⟨tid, temails⟩ := p
    simp only [List.foldl_cons]
    refine (ih (pass3bStep smm acc (tid, temails))).trans ?_
    have h1 : (allEmails (pass3bStep smm acc (tid, temails))).Perm
        (allEmails acc ++ temails) := by
      simpa [pass3bStep, pushBucketAll] using
        allEmails_push acc _ temails
    refine (List.Perm.append_right (allEmails rest) h1).trans ?_
    rw [allEmails_cons, List.append_assoc]

theorem insSorted_perm (e : Email) (l : List Email) :
    (insSorted e l).Perm (l ++ [e]) := by
  induction l with
  | nil => simp [insSorted]
  | cons f t ih =>
    by_cases h : sortKey f ≤ sortKey e
    · simpa [insSorted, h] using ih.cons f
    · simp only [insSorted, if_neg h]
      exact (List.perm_append_singleton e (f :: t)).symm

theorem isort_fold_perm (l : List Email) :
    ∀ acc : List Email,
      ((l.foldl (fun acc e => insSorted e acc) acc)).Perm (acc ++ l) := by
  induction l with
  | nil => intro acc; simp
  | cons e t ih =>
    intro acc
    simp only [List.foldl_cons]
    refine (ih (insSorted e acc)).trans ?_
    refine (List.Perm.append_right t (insSorted_perm e acc)).trans ?_
    simp

theorem isort_perm (l : List Email) : (isortEmails l).Perm l := by
  simpa using isort_fold_perm l []

theorem allEmails_map_sort (final : List (String × List Email)) :
    (allEmails (final.map fun p => (p.1, isortEmails p.2))).Perm
      (allEmails final) := by
  induction final with
  | nil => simp [allEmails]
  | cons p t ih =>
    obtain ⟨k, v⟩ := p
    simp only [List.map_cons, allEmails_cons]
    exact List.Perm.append (isort_perm v) ih

theorem run_perm (es : List Email) :
    (allEmails (groupEmailsIntoThreads es)).Perm es := by
  unfold groupEmailsIntoThreads
  refine (allEmails_map_sort _).trans ?_
  refine (pass3b_fold_perm _ _ []).trans ?_
  simp only [allEmails, List.map_nil, List.flatten_nil, List.nil_append]
  refine (pass2_fold_perm _ _ ([], [])).trans ?_
  simp only [allEmails, List.map_nil, List.flatten_nil, List.nil_append]
  unfold pass1
  refine (pass1_fold_perm es ([], [])).trans ?_
  simp [allEmails]

/-- Claim C1 (amended): the partition is not arrival-order-independent
(see the counterexample), but any two arrival orders of the same
message set process exactly the same messages: the threads returned
for one permutation carry, in total, a permutation of the messages
carried by the threads returned for the other, so both runs partition
the same message set. -/
theorem c1_partition_same_messages (l1 l2 : List Email)
    (h : l1.Perm l2) :
    (allEmails (groupEmailsIntoThreads l1)).Perm
      (allEmails (groupEmailsIntoThreads l2)) :=
  (run_perm l1).trans (h.trans (run_perm l2).symm)

/-- Witness for c1_partition_same_messages at a concrete permuted
pair. -/
theorem c1_partition_same_messages_witness :
    ([exC1x, exC1y].Perm [exC1y, exC1x]) ∧
      (allEmails (groupEmailsIntoThreads [exC1x, exC1y])).Perm
        (allEmails (groupEmailsIntoThreads [exC1y, exC1x])) :=
  ⟨by decide, c1_partition_same_messages [exC1x, exC1y] [exC1y, exC1x]
    (by decide)⟩

/-- Counterexample to claim C1 as stated: the two arrival orders are
permutations of the same four messages, yet the block of the partition
containing message 3 differs — in the first order it shares a thread
with messages 1 and 4, in the second with messages 2 and 4 — so
groupEmailsIntoThreads does not yield the same partition on every
permutation. -/
theorem c1_partition_depends_on_order :
    ([exC1x, exC1y, exC1a, exC1b].Perm [exC1x, exC1y, exC1b, exC1a]) ∧
      threadMatesUids (groupEmailsIntoThreads [exC1x, exC1y, exC1a, exC1b]) 3 =
        [1, 3, 4] ∧
      threadMatesUids (groupEmailsIntoThreads [exC1x, exC1y, exC1b, exC1a]) 3 =
        [2, 3, 4] := by
  refine ⟨by decide, by decide, by decide⟩

/-! ## Sortedness of the per-thread order (for C9) -/

theorem mem_insSorted (x e : Email) (l : List Email)
    (h : x ∈ insSorted e l) : x = e ∨ x ∈ l := by
  have := (insSorted_perm e l).mem_iff.mp h
  simpa [or_comm] using this

theorem insSorted_pairwise (e : Email) (l : List Email)
    (h : l.Pairwise (fun a b => sortKey a ≤ sortKey b)) :
    (insSorted e l).Pairwise (fun a b => sortKey a ≤ sortKey b) := by
  induction l with
  | nil => simp [insSorted]
  | cons f t ih =>
    rw [List.pairwise_cons] at h
    by_cases hle : sortKey f ≤ sortKey e
    · simp only [insSorted, if_pos hle, List.pairwise_cons]
      refine ⟨fun x hx => ?_, ih h.2⟩
      rcases mem_insSorted x e t hx with rfl | hx
      · exact hle
      · exact h.1 x hx
    · simp only [insSorted, if_neg hle, List.pairwise_cons]
      have hef : sortKey e ≤ sortKey f := Nat.le_of_not_le hle
      refine ⟨fun x hx => ?_, h⟩
      rcases List.mem_cons.mp hx with rfl | hx
      · exact hef
      · exact hef.trans (h.1 x hx)

theorem isort_sorted_aux (l : List Email) :
    ∀ acc : List Email,
      acc.Pairwise (fun a b => sortKey a ≤ sortKey b) →
      ((l.foldl (fun acc e => insSorted e acc) acc)).Pairwise
        (fun a b => sortKey a ≤ sortKey b) := by
  induction l with
  | nil => intro acc h; exact h
  | cons e t ih =>
    intro acc h
    simp only [List.foldl_cons]
    exact ih (insSorted e acc) (insSorted_pairwise e acc h)

theorem isort_sorted (l : List Email) :
    (isortEmails l).Pairwise (fun a b => sortKey a ≤ sortKey b) :=
  isort_sorted_aux l [] (by simp)

/-- Claim C9 (amended): within every thread returned by
groupEmailsIntoThreads the messages are ordered ascending by the sort
key the source comparator uses, namely the timestamp with a missing
date mapped to zero — so undated messages come first, before any
positively dated message, not last. -/
theorem c9_sorted_by_key (es : List Email) (p : String × List Email)
    (hp : p ∈ groupEmailsIntoThreads es) :
    p.2.Pairwise (fun a b => sortKey a ≤ sortKey b) := by
  unfold groupEmailsIntoThreads at hp
  rw [List.mem_map] at hp
  obtain ⟨q, _, rfl⟩ := hp
  exact isort_sorted q.2

/-- Witness for c9_sorted_by_key at a concrete run. -/
theorem c9_sorted_by_key_witness :
    (("r", [exC9u, exC9d]) ∈ groupEmailsIntoThreads [exC9d, exC9u]) ∧
      ([exC9u, exC9d].Pairwise fun a b => sortKey a ≤ sortKey b) :=
  ⟨by decide,
    c9_sorted_by_key [exC9d, exC9u] ("r", [exC9u, exC9d]) (by decide)⟩

/-- Counterexample to claim C9 as stated: in the thread grouped from a
dated and an undated message, the undated message is placed first, not
last, because the comparator maps a missing date to zero. -/
theorem c9_undated_first_not_last :
    groupEmailsIntoThreads [exC9d, exC9u] = [("r", [exC9u, exC9d])] ∧
      exC9u.date = none ∧ exC9d.date = some 5 ∧
      sortedUndatedLastB [exC9u, exC9d] = false := by
  refine ⟨by decide, rfl, rfl, by decide⟩

/-! ## Classification claims (C5, C6) -/

theorem buildThread4_needsResponse (dbk : List (String × ThreadData))
    (ai : List (String × AiResult)) (mi : List (String × String))
    (data : ThreadData) :
    (buildThread4 dbk ai mi data).needsResponse =
      needsResponse4 (buildThread4 dbk ai mi data).emails.getLast?
        (match (buildThread4 dbk ai mi data).emails.getLast? with
         | some x => isOutbound x
         | none => false)
        (jget ai data.threadKey) := rfl

/-- Claim C5 (amended): in the part_004 categorizer the acknowledgment
check runs before the attachment check, so a thread whose last message
is inbound and is a strict acknowledgment gets needsResponse false even
when that message also carries a real non-signature attachment: the
acknowledgment takes precedence over the attachment, not the other way
round. -/
theorem c5_ack_precedence (threadMap : List (String × List Email))
    (ai : List (String × AiResult)) :
    ∀ c ∈ categorizeThreads4 threadMap ai, ∀ le : Email,
      c.emails.getLast? = some le → isOutbound le = false →
      isSimpleAcknowledgment le.bodyText = true →
      c.needsResponse = false := by
  intro c hc le hlast hout hack
  unfold categorizeThreads4 at hc
  rw [List.mem_filterMap] at hc
  obtain ⟨data, hdata, hsome⟩ := hc
  by_cases hskip : jhas (mergedIntoOf
      (List.foldl (fun m d => jset m d.threadKey d) []
        (threadsDataOf threadMap)) ai) data.threadKey
  · rw [if_pos hskip] at hsome
    cases hsome
  · rw [if_neg hskip] at hsome
    obtain rfl := Option.some.inj hsome
    rw [buildThread4_needsResponse, hlast]
    simp only [needsResponse4, hout]
    simp [hack]

/-- Witness for c5_ack_precedence: an inbound bare thanks with a real
PDF attachment classifies with needsResponse false. -/
theorem c5_ack_precedence_witness :
    (exC5result ∈ categorizeThreads4 [("k5", [exC5email])] []) ∧
      exC5result.emails.getLast? = some exC5email ∧
      isOutbound exC5email = false ∧
      isSimpleAcknowledgment exC5email.bodyText = true ∧
      exC5result.needsResponse = false :=
  ⟨by decide, by decide, by decide, by decide,
    c5_ack_precedence [("k5", [exC5email])] [] exC5result (by decide)
      exC5email (by decide) (by decide) (by decide)⟩

/-- Counterexample to claim C5 as stated: the last (only) message of
the thread is inbound, its whole pre-signature body is a strict
acknowledgment, it carries a real non-signature PDF attachment, and
classification still returns needsResponse false — the attachment does
not take precedence. -/
theorem c5_ack_with_attachment_false :
    isOutbound exC5email = false ∧
      isSimpleAcknowledgment exC5email.bodyText = true ∧
      exC5email.hasAttachments = true ∧
      hasRealAttachments exC5email = true ∧
      (categorizeThreads4 [("k5", [exC5email])] []).map (·.needsResponse) =
        [false] := by
  refine ⟨by decide, by decide, by decide, by decide, by decide⟩

/-- Claim C6 (amended): the forced-true override exists only in the
part_005 categorizer variant: there, for a thread whose last message
is inbound and whose final itemType is po_received or quote_request,
needsResponse is true regardless of the classifier value. The part_004
variant has no such override (see the counterexample). -/
theorem c6_override_part005 :
    ∀ (ai : Option AiResult) (it : ItemT),
      it = ItemT.po_received ∨ it = ItemT.quote_request →
      needsResponse5 false ai it = true := by
  intro ai it h
  rcases h with rfl | rfl <;> simp [needsResponse5]

/-- Witness for c6_override_part005 at a concrete classifier value
that answered needsResponse false. -/
theorem c6_override_part005_witness :
    (ItemT.po_received = ItemT.po_received ∨
      ItemT.po_received = ItemT.quote_request) ∧
      exC6ai.needsResponse = false ∧
      needsResponse5 false (some exC6ai) ItemT.po_received = true :=
  ⟨Or.inl rfl, rfl,
    c6_override_part005 (some exC6ai) ItemT.po_received (Or.inl rfl)⟩

/-- Counterexample to claim C6 as stated: in the part_004 categorizer
(the variant that also owns the acknowledgment and attachment checks
the claim quantifies over), an inbound purchase-order thread whose
classifier response says needsResponse false keeps needsResponse
false: itemType is forced to po_received by the subject safety net,
the last message is inbound, and no override forces needsResponse
true. -/
theorem c6_part004_no_override :
    (exC6result ∈ categorizeThreads4 [("k6", [exC6email])] [("k6", exC6ai)]) ∧
      exC6result.itemType = ItemT.po_received ∧
      exC6result.lastEmailFromUs = false ∧
      exC6result.needsResponse = false := by
  refine ⟨by decide, by decide, by decide, by decide⟩

/-! ## Hourly checkpoint claim (C8) -/

/-- Claim C8: in an hourly run with alert activity to report (outside
preview), the checkpoint is advanced to the window end only after the
notification dispatch and the notified marks succeed — the effect
order is send, mark, save — and when the dispatch throws, no effect
happens, the run errors, and the stored checkpoint is unchanged, so
the same window is reprocessed next run. -/
theorem c8_checkpoint_after_dispatch (st : JobState) (now : Int)
    (r : HourlyRun) (hc : hasContent r = true) (hp : r.preview = false) :
    (r.sendOk = true →
      runHourlyCheck st now r =
        ({ checkpoint := some now },
         [.evEmailSent, .evAlertsMarked, .evCheckpointSaved now], false)) ∧
    (r.sendOk = false → runHourlyCheck st now r = (st, [], true)) := by
  constructor <;> intro hs <;> simp [runHourlyCheck, hc, hp, hs]

/-- Witness for c8_checkpoint_after_dispatch: with one new alert, a
failed dispatch leaves the checkpoint at 500 and errors; a successful
dispatch sends, marks, then saves the window end 1000. -/
theorem c8_checkpoint_after_dispatch_witness :
    hasContent exC8run = true ∧ exC8run.preview = false ∧
      runHourlyCheck exC8state 1000 exC8run = (exC8state, [], true) ∧
      runHourlyCheck exC8state 1000 exC8runOk =
        ({ checkpoint := some 1000 },
         [.evEmailSent, .evAlertsMarked, .evCheckpointSaved 1000], false) :=
  ⟨by decide, rfl,
    (c8_checkpoint_after_dispatch exC8state 1000 exC8run (by decide) rfl).2 rfl,
    (c8_checkpoint_after_dispatch exC8state 1000 exC8runOk (by decide) rfl).1
      rfl⟩

/-! ## Stage 1 alert ladder (C2) -/

/-- Claim C2: with the ledger client available, every newly detected
purchase-order thread (its key absent from the existing alerts)
creates exactly one Stage 1 alert — analyzeNewPoEmails maps each
non-skipped thread to exactly one alert row carrying its thread key —
chosen by the claimed order of checks: a missing or untrusted contact
email yields suspicious_po_email with neither a ledger customer nor a
sales-order lookup performed for that thread; otherwise a failed
customer match yields no_qb_customer (no sales-order lookup); a found
sales order yields po_detected_with_so; otherwise po_detected. -/
theorem c2_stage1_alert_ladder (env : QbEnv) (existingKeys : List String)
    (now : Int) (t : CThread) (havail : env.available = true) :
    (∀ threads : List CThread,
      analyzeNewPoEmails env existingKeys now threads =
        ((threads.filter fun u => !existingKeys.contains u.threadKey).map
          (fun u => (analyzePoThread env now u).1),
         (threads.filter fun u => !existingKeys.contains u.threadKey).map
          (fun u => (u.threadKey, (analyzePoThread env now u).2)))) ∧
    (analyzePoThread env now t).1.threadKey = t.threadKey ∧
    (truthy (getExternalContact t.emails).email = false →
      (analyzePoThread env now t).1.alertType = .suspicious_po_email ∧
      (analyzePoThread env now t).2 = (false, false)) ∧
    (∀ ce, (getExternalContact t.emails).email = some ce →
      truthy (getExternalContact t.emails).email = true →
      env.trusted ce = false →
      (analyzePoThread env now t).1.alertType = .suspicious_po_email ∧
      (analyzePoThread env now t).2 = (false, false)) ∧
    (∀ ce, (getExternalContact t.emails).email = some ce →
      truthy (getExternalContact t.emails).email = true →
      env.trusted ce = true →
      env.matchCustomer ce (orUndef (getExternalContact t.emails).name) =
        none →
      (analyzePoThread env now t).1.alertType = .no_qb_customer ∧
      (analyzePoThread env now t).2 = (true, false)) ∧
    (∀ ce mr so, (getExternalContact t.emails).email = some ce →
      truthy (getExternalContact t.emails).email = true →
      env.trusted ce = true →
      env.matchCustomer ce (orUndef (getExternalContact t.emails).name) =
        some mr →
      env.soFor mr.customerId
        (orUndef ((poDetailsOf env t).bind (·.poNumber)))
        (orUndefNat ((poDetailsOf env t).bind (·.total))) = some so →
      (analyzePoThread env now t).1.alertType = .po_detected_with_so ∧
      (analyzePoThread env now t).2 = (true, true)) ∧
    (∀ ce mr, (getExternalContact t.emails).email = some ce →
      truthy (getExternalContact t.emails).email = true →
      env.trusted ce = true →
      env.matchCustomer ce (orUndef (getExternalContact t.emails).name) =
        some mr →
      env.soFor mr.customerId
        (orUndef ((poDetailsOf env t).bind (·.poNumber)))
        (orUndefNat ((poDetailsOf env t).bind (·.total))) = none →
      (analyzePoThread env now t).1.alertType = .po_detected ∧
      (analyzePoThread env now t).2 = (true, true)) := by
  refine ⟨?_, ?_, ?_, ?_, ?_, ?_, ?_⟩
  · intro threads
    unfold analyzeNewPoEmails
    suffices h : ∀ acc : List AlertRow × List (String × Bool × Bool),
        threads.foldl (analyzeStep env existingKeys now) acc =
          (acc.1 ++ (threads.filter fun u =>
              !existingKeys.contains u.threadKey).map
            (fun u => (analyzePoThread env now u).1),
           acc.2 ++ (threads.filter fun u =>
              !existingKeys.contains u.threadKey).map
            (fun u => (u.threadKey, (analyzePoThread env now u).2))) by
      simpa using h ([], [])
    induction threads with
    | nil => intro acc; simp
    | cons u rest ih =>
      intro acc
      by_cases hc : existingKeys.contains u.threadKey
      · have hstep : analyzeStep env existingKeys now acc u = acc := by
          unfold analyzeStep
          rw [if_pos hc]
        simp only [List.foldl_cons, hstep, List.filter_cons, hc]
        simpa using ih acc
      · have hstep : analyzeStep env existingKeys now acc u =
            (acc.1 ++ [(analyzePoThread env now u).1],
             acc.2 ++ [(u.threadKey, (analyzePoThread env now u).2)]) := by
          unfold analyzeStep
          rw [if_neg (by simpa using hc)]
        simp only [List.foldl_cons, hstep, List.filter_cons, hc]
        rw [ih]
        simp
  · unfold analyzePoThread
    dsimp only
    repeat' split
    all_goals rfl
  · intro hfalsy
    unfold analyzePoThread
    simp [hfalsy]
  · intro ce hce htr htrust
    have htr2 : truthy (some ce) = true := by rw [← hce]; exact htr
    unfold analyzePoThread
    simp only [hce, htr2, Bool.not_true, Bool.false_eq_true, if_false,
      Option.getD_some, htrust]
    simp
  · intro ce hce htr htrust hm
    have htr2 : truthy (some ce) = true := by rw [← hce]; exact htr
    unfold analyzePoThread
    simp only [hce, htr2, Bool.not_true, Bool.false_eq_true, if_false,
      Option.getD_some, htrust, havail, hm]
    simp
  · intro ce mr so hce htr htrust hm hso
    have htr2 : truthy (some ce) = true := by rw [← hce]; exact htr
    unfold analyzePoThread
    simp only [hce, htr2, Bool.not_true, Bool.false_eq_true, if_false,
      Option.getD_some, htrust, havail, hm, hso]
    simp
  · intro ce mr hce htr htrust hm hso
    have htr2 : truthy (some ce) = true := by rw [← hce]; exact htr
    unfold analyzePoThread
    simp only [hce, htr2, Bool.not_true, Bool.false_eq_true, if_false,
      Option.getD_some, htrust, havail, hm, hso]
    simp

/-- Witness for c2_stage1_alert_ladder: the trusted PO thread with a
matching customer and sales order yields exactly the informational
po_detected_with_so alert, with both lookups performed. -/
theorem c2_stage1_alert_ladder_witness :
    exQbEnv.available = true ∧
      ((analyzeNewPoEmails exQbEnv [] 0 [exC2thread]).1.map (·.alertType) =
        [AlertType.po_detected_with_so]) ∧
      (analyzePoThread exQbEnv 0 exC2thread).1.alertType =
        AlertType.po_detected_with_so ∧
      (analyzePoThread exQbEnv 0 exC2thread).2 = (true, true) :=
  ⟨rfl, by decide,
    ((c2_stage1_alert_ladder exQbEnv [] 0 exC2thread rfl).2.2.2.2.2.1
      "buyer@client.com"
      { customerId := "C1", customerName := "Client", confidence := 5 }
      { soId := "SO9", refNumber := "9", totalCents := some 100 }
      (by decide) (by decide) (by decide) (by decide) (by decide)).1,
    ((c2_stage1_alert_ladder exQbEnv [] 0 exC2thread rfl).2.2.2.2.2.1
      "buyer@client.com"
      { customerId := "C1", customerName := "Client", confidence := 5 }
      { soId := "SO9", refNumber := "9", totalCents := some 100 }
      (by decide) (by decide) (by decide) (by decide) (by decide)).2⟩

/-! ## Escalation behaviour (C3) -/

/-- Claim C3 (amended): an open po_detected alert is never touched
before it is strictly older than the four-hour threshold; a candidate
WITH a recorded ledger customer id is re-verified fresh and resolves
exactly when a sales order now exists, otherwise escalates; promotion
is one-way — a po_missing_so alert is never demoted by the escalation
or auto-resolution passes. The claim as stated fails for candidates
without a customer id, which escalate without any re-verification (see
the counterexample). -/
theorem c3_escalation_behavior (env : QbEnv) (now : Int) (a : AlertRow) :
    (a.detectedAt ≥ now - ESCALATION_MS → checkEscalationRow env now a = a) ∧
    (escalationCandidate now a = false → checkEscalationRow env now a = a) ∧
    (env.available = true → escalationCandidate now a = true →
      truthy a.qbCustomerId = true →
      (∀ so, env.soFor (a.qbCustomerId.getD "") (orUndef a.poNumber)
          (match a.poTotal with
           | some t => if t = 0 then none else some (t / 100)
           | none => none) = some so →
        checkEscalationRow env now a = resolveAlertRow now "auto" a) ∧
      (env.soFor (a.qbCustomerId.getD "") (orUndef a.poNumber)
          (match a.poTotal with
           | some t => if t = 0 then none else some (t / 100)
           | none => none) = none →
        checkEscalationRow env now a = escalateAlertRow now a)) ∧
    (a.alertType = .po_missing_so →
      (checkEscalationRow env now a).alertType = .po_missing_so ∧
      (autoResolveRow env now a).alertType = .po_missing_so) ∧
    ((resolveAlertRow now "auto" a).alertType = a.alertType ∧
      (resolveAlertRow now "auto" a).status = .resolvedA ∧
      (escalateAlertRow now a).alertType = .po_missing_so ∧
      (escalateAlertRow now a).status = a.status) := by
  have hpres : (autoResolveRow env now a).alertType = a.alertType := by
    unfold autoResolveRow resolveAlertRow
    repeat' split
    all_goals rfl
  refine ⟨?_, ?_, ?_, ?_, rfl, rfl, rfl, rfl⟩
  · intro h
    have hlt : ¬ (a.detectedAt < now - ESCALATION_MS) := not_lt.mpr h
    simp [checkEscalationRow, escalationCandidate, hlt]
  · intro hcand
    simp [checkEscalationRow, hcand]
  · intro havail hcand hqb
    constructor
    · intro so hso
      simp [checkEscalationRow, hcand, havail, hqb, hso]
    · intro hso
      simp [checkEscalationRow, hcand, havail, hqb, hso]
  · intro h
    have hcand : escalationCandidate now a = false := by
      simp [escalationCandidate, h]
    constructor
    · simp [checkEscalationRow, hcand, h]
    · rw [hpres, h]

/-- Witness for c3_escalation_behavior: the five-hour-old candidate
with a recorded customer id is re-verified and resolves because the
ledger now has a matching sales order. -/
theorem c3_escalation_behavior_witness :
    exC3env.available = true ∧
      escalationCandidate exC3now exC3walert = true ∧
      truthy exC3walert.qbCustomerId = true ∧
      checkEscalationRow exC3env exC3now exC3walert =
        resolveAlertRow exC3now "auto" exC3walert :=
  ⟨rfl, by decide, by decide,
    ((c3_escalation_behavior exC3env exC3now exC3walert).2.2.1 rfl
      (by decide) (by decide)).1
      { soId := "SO1", refNumber := "1", totalCents := none } (by decide)⟩

/-- Counterexample to claim C3 as stated: a five-hour-old open
po_detected alert without a recorded ledger customer id is promoted to
po_missing_so without any re-verification, even though the ledger
lookup the claim requires would have found a matching sales order and
the alert should then have resolved. -/
theorem c3_escalation_without_reverify :
    escalationCandidate exC3now exC3alert = true ∧
      exC3alert.qbCustomerId = none ∧
      exC3env.available = true ∧
      exC3env.soFor "" none none =
        some { soId := "SO1", refNumber := "1", totalCents := none } ∧
      checkEscalationRow exC3env exC3now exC3alert =
        escalateAlertRow exC3now exC3alert ∧
      (checkEscalationRow exC3env exC3now exC3alert).alertType =
        .po_missing_so ∧
      (checkEscalationRow exC3env exC3now exC3alert).status = .opened := by
  refine ⟨by decide, rfl, rfl, rfl, by decide, by decide, by decide⟩

theorem findRow_nil (k : String) : findRow [] k = none := rfl

theorem findRow_cons (r : DashRow) (t : List DashRow) (k : String) :
    findRow (r :: t) k = if r.threadKey = k then some r else findRow t k := by
  by_cases h : r.threadKey = k
  · simp [findRow, List.find?_cons_of_pos, h]
  · simp [findRow, List.find?_cons_of_neg, h]

theorem findRow_updateRow (rows : List DashRow) (k2 : String)
    (f : DashRow → DashRow) (hf : ∀ r, (f r).threadKey = r.threadKey)
    (k : String) :
    findRow (updateRow rows k2 f) k =
      if k2 = k then (findRow rows k).map f else findRow rows k := by
  induction rows with
  | nil => simp [updateRow, findRow_nil]
  | cons r t ih =>
    have hup : updateRow (r :: t) k2 f =
        (if r.threadKey = k2 then f r else r) :: updateRow t k2 f := rfl
    rw [hup]
    by_cases hr : r.threadKey = k2
    · rw [if_pos hr, findRow_cons, hf r, findRow_cons]
      by_cases hk : k2 = k
      · rw [if_pos (hr.trans hk), if_pos (hr.trans hk), if_pos hk]
        simp
      · have hrk : ¬ r.threadKey = k := fun hh => hk ((hr.symm.trans hh))
        rw [if_neg hrk, if_neg hrk, ih, if_neg hk]
    · rw [if_neg hr, findRow_cons, findRow_cons]
      by_cases hrk : r.threadKey = k
      · have hk : ¬ k2 = k := fun hh => hr (hrk.trans hh.symm)
        rw [if_pos hrk, if_pos hrk, if_neg hk]
      · rw [if_neg hrk, if_neg hrk, ih]

theorem findRow_append (l1 l2 : List DashRow) (k : String) :
    findRow (l1 ++ l2) k =
      match findRow l1 k with
      | some r => some r
      | none => findRow l2 k := by
  induction l1 with
  | nil => simp [findRow_nil]
  | cons r t ih =>
    rw [List.cons_append, findRow_cons, findRow_cons]
    by_cases h : r.threadKey = k
    · rw [if_pos h, if_pos h]
    · rw [if_neg h, if_neg h, ih]

theorem findRow_insertRow_ne (rows : List DashRow) (r : DashRow)
    (k : String) (h : r.threadKey ≠ k) :
    findRow (insertRow rows r) k = findRow rows k := by
  unfold insertRow
  by_cases hs : (findRow rows r.threadKey).isSome
  · rw [if_pos hs]
  · rw [if_neg hs, findRow_append]
    cases hf : findRow rows k with
    | some x => rfl
    | none => simp [findRow_cons, h, findRow_nil]

theorem findRow_insertRow_new (rows : List DashRow) (r : DashRow)
    (h : findRow rows r.threadKey = none) :
    findRow (insertRow rows r) r.threadKey = some r := by
  unfold insertRow
  rw [if_neg (by simp [h]), findRow_append, h]
  simp [findRow_cons]


theorem metadataUpdate_threadKey (t : CThread) (todo : Option ITodo)
    (ex : DashRow) (now : Nat) (r : DashRow) :
    (metadataUpdate t todo ex now r).threadKey = r.threadKey := by
  unfold metadataUpdate
  repeat' split
  all_goals rfl

theorem metadataUpdate_status (t : CThread) (todo : Option ITodo)
    (ex : DashRow) (now : Nat) (r : DashRow) :
    (metadataUpdate t todo ex now r).status = r.status := by
  unfold metadataUpdate
  repeat' split
  all_goals rfl

theorem metadataUpdate_resolvedBy (t : CThread) (todo : Option ITodo)
    (ex : DashRow) (now : Nat) (r : DashRow) :
    (metadataUpdate t todo ex now r).resolvedBy = r.resolvedBy := by
  unfold metadataUpdate
  repeat' split
  all_goals rfl

theorem syncOneKey_frame (tbk : List (String × CThread))
    (dbk : List (String × ITodo)) (dis : List String)
    (rows0 : List DashRow) (now : Nat)
    (acc : List DashRow × TodoSyncResult) (k2 k : String) (hne : k2 ≠ k) :
    findRow (syncOneKey tbk dbk dis rows0 now acc k2).1 k =
      findRow acc.1 k := by
  unfold syncOneKey
  cases hex : findRow rows0 k2 with
  | some ex =>
    dsimp only
    split
    · refine (findRow_updateRow acc.1 k2 _ ?_ k).trans (if_neg hne)
      intro r
      rfl
    · cases ht : jget tbk k2 with
      | some t =>
        dsimp only
        refine (findRow_updateRow acc.1 k2 _ ?_ k).trans (if_neg hne)
        exact metadataUpdate_threadKey t (jget dbk k2) ex now
      | none => rfl
  | none =>
    dsimp only
    cases htd : jget dbk k2 with
    | some td =>
      cases ht : jget tbk k2 with
      | some t =>
        dsimp only
        split
        · exact findRow_insertRow_ne _ _ k hne
        · exact findRow_insertRow_ne _ _ k hne
      | none => rfl
    | none =>
      cases ht : jget tbk k2 <;> rfl


theorem dedupKeys_nodup_aux (l : List String) :
    ∀ acc : List String, acc.Nodup →
      (l.foldl (fun acc k => if acc.contains k then acc else acc ++ [k])
        acc).Nodup := by
  induction l with
  | nil => intro acc h; exact h
  | cons k t ih =>
    intro acc h
    simp only [List.foldl_cons]
    by_cases hc : acc.contains k
    · rw [if_pos hc]; exact ih acc h
    · rw [if_neg hc]
      refine ih _ ?_
      have hk : k ∉ acc := by
        intro hm
        exact hc (by simpa using hm)
      simp [List.nodup_append, h, hk]

theorem dedupKeys_nodup (l : List String) : (dedupKeys l).Nodup :=
  dedupKeys_nodup_aux l [] (by simp)

theorem syncFold_frame (tbk : List (String × CThread))
    (dbk : List (String × ITodo)) (dis : List String)
    (rows0 : List DashRow) (now : Nat) (keys : List String) (k : String)
    (hall : ∀ k2 ∈ keys, k2 ≠ k) :
    ∀ acc, findRow
        ((keys.foldl (syncOneKey tbk dbk dis rows0 now) acc)).1 k =
      findRow acc.1 k := by
  induction keys with
  | nil => intro acc; rfl
  | cons k2 rest ih =>
    intro acc
    simp only [List.foldl_cons]
    rw [ih (fun q hq => hall q (by simp [hq])),
      syncOneKey_frame tbk dbk dis rows0 now acc k2 k
        (hall k2 (by simp))]

theorem syncOneKey_at_key (tbk : List (String × CThread))
    (dbk : List (String × ITodo)) (dis : List String)
    (rows0 : List DashRow) (now : Nat)
    (acc : List DashRow × TodoSyncResult) (k : String) (ex : DashRow)
    (t : CThread) (hex : findRow rows0 k = some ex)
    (hopen : ex.status = .opened) (ht : jget tbk k = some t)
    (htd : jget dbk k = none) (hacc : findRow acc.1 k = some ex) :
    (findRow (syncOneKey tbk dbk dis rows0 now acc k).1 k).map
        (fun r => (r.status, r.resolvedBy)) =
      some (if t.lastEmailFromUs then
              (TodoStatus.resolvedT, some ResolvedBy.email_activity)
            else (TodoStatus.opened, ex.resolvedBy)) := by
  unfold syncOneKey
  rw [hex]
  dsimp only
  rw [ht, htd]
  by_cases hl : t.lastEmailFromUs
  · rw [if_pos (by simp [hopen, hl])]
    dsimp only
    rw [findRow_updateRow acc.1 k _ (by intro r; rfl) k, if_pos rfl, hacc,
      if_pos hl]
    rfl
  · rw [if_neg (by simp [hl])]
    dsimp only
    rw [findRow_updateRow acc.1 k _
        (by intro r; exact metadataUpdate_threadKey t none ex now r) k,
      if_pos rfl, hacc, if_neg hl]
    simp [metadataUpdate_status, metadataUpdate_resolvedBy, hopen]


theorem c7_fold (tbk : List (String × CThread))
    (dbk : List (String × ITodo)) (dis : List String)
    (rows0 : List DashRow) (now : Nat) (k : String)
    (hk : dis.contains k = true) (h0 : findRow rows0 k = none)
    (keys : List String) :
    ∀ acc, (∀ r, findRow acc.1 k = some r → r.status = .dismissedT) →
      ∀ r, findRow
          ((keys.foldl (syncOneKey tbk dbk dis rows0 now) acc)).1 k =
            some r →
        r.status = .dismissedT := by
  induction keys with
  | nil => intro acc hP; exact hP
  | cons k2 rest ih =>
    intro acc hP
    simp only [List.foldl_cons]
    apply ih
    intro r hr
    by_cases hne : k2 = k
    · subst hne
      unfold syncOneKey at hr
      rw [h0] at hr
      dsimp only at hr
      cases htd : jget dbk k2 with
      | none =>
        rw [htd] at hr
        exact hP r hr
      | some td =>
        rw [htd] at hr
        cases ht : jget tbk k2 with
        | none =>
          rw [ht] at hr
          exact hP r hr
        | some t =>
          rw [ht] at hr
          dsimp only at hr
          rw [if_pos hk] at hr
          dsimp only at hr
          unfold insertRow at hr
          by_cases hs : (findRow acc.1 (newTodoRow k2 td t now true).threadKey).isSome
          · rw [if_pos hs] at hr
            exact hP r hr
          · rw [if_neg hs, findRow_append] at hr
            have hnone : findRow acc.1 k2 = none := by
              have := Option.not_isSome_iff_eq_none.mp hs
              simpa [newTodoRow] using this
            rw [hnone] at hr
            rw [findRow_cons] at hr
            have hkey : (newTodoRow k2 td t now true).threadKey = k2 := rfl
            rw [if_pos hkey] at hr
            have : newTodoRow k2 td t now true = r := Option.some.inj hr
            rw [← this]
            rfl
    · rw [syncOneKey_frame tbk dbk dis rows0 now acc k2 k hne] at hr
      exact hP r hr

/-- Claim C7: dismissal is sticky. For every thread key recorded in the
dismissed set with no pre-existing dashboard row, any row that
syncDashTodos leaves at that key has status dismissed: the dismissed
check runs before the insert, so a dismissed thread never regenerates an
open todo even when it satisfies the creation predicate again. -/
theorem c7_dismissed_sticky (threads : List CThread) (todos : List ITodo)
    (dismissed : List String) (rows0 : List DashRow) (now : Nat)
    (k : String) (hk : dismissed.contains k = true)
    (h0 : findRow rows0 k = none) :
    ∀ r, findRow (syncDashTodos threads todos dismissed rows0 now).1 k =
        some r →
      r.status = TodoStatus.dismissedT := by
  unfold syncDashTodos
  refine c7_fold _ _ dismissed rows0 now k hk h0 _
    (rows0, { newTodos := 0, resolvedTodos := 0, updatedThreads := 0 }) ?_
  intro r hr
  rw [h0] at hr
  cases hr

/-- Claim C4 (corrected): for an existing open todo whose thread is
present and not re-identified as a todo, the reconciliation pass
resolves it with resolvedBy email_activity exactly when the thread's
LAST message is outbound; otherwise the row stays open with its
resolvedBy unchanged. The spec's stronger rule (any outbound message
after the detection point resolves) is refuted by the counterexample. -/
theorem c4_resolution_rule (threads : List CThread) (todos : List ITodo)
    (dismissed : List String) (rows0 : List DashRow) (now : Nat)
    (k : String) (ex : DashRow) (t : CThread)
    (hex : findRow rows0 k = some ex) (hopen : ex.status = .opened)
    (ht : jget (threads.foldl (fun m u => jset m u.threadKey u) []) k =
      some t)
    (htd : jget (todos.foldl (fun m u => jset m u.threadKey u) []) k = none)
    (hmem : k ∈ dedupKeys
      (threads.map (·.threadKey) ++ todos.map (·.threadKey))) :
    (findRow (syncDashTodos threads todos dismissed rows0 now).1 k).map
        (fun r => (r.status, r.resolvedBy)) =
      some (if t.lastEmailFromUs then
              (TodoStatus.resolvedT, some ResolvedBy.email_activity)
            else (TodoStatus.opened, ex.resolvedBy)) := by
  unfold syncDashTodos
  obtain ⟨l1, l2, hsplit⟩ := List.append_of_mem hmem
  have hnd := dedupKeys_nodup
    (threads.map (·.threadKey) ++ todos.map (·.threadKey))
  rw [hsplit] at hnd
  rcases List.nodup_append.mp hnd with ⟨hnd1, hnd2, hdisj⟩
  have hk1 : ∀ q ∈ l1, q ≠ k := by
    intro q hq hqq
    exact hdisj hq (by simp [hqq])
  have hk2 : ∀ q ∈ l2, q ≠ k := by
    intro q hq hqq
    have := (List.nodup_cons.mp hnd2).1
    exact this (hqq ▸ hq)
  rw [hsplit, List.foldl_append, List.foldl_cons]
  rw [syncFold_frame _ _ dismissed rows0 now l2 k hk2]
  have hfr : findRow
      (l1.foldl (syncOneKey
          (threads.foldl (fun m u => jset m u.threadKey u) [])
          (todos.foldl (fun m u => jset m u.threadKey u) [])
          dismissed rows0 now)
        (rows0,
          { newTodos := 0, resolvedTodos := 0, updatedThreads := 0 })).1 k =
      findRow rows0 k :=
    syncFold_frame _ _ dismissed rows0 now l1 k hk1 _
  exact syncOneKey_at_key _ _ dismissed rows0 now _ k ex t hex hopen ht htd
    (hfr.trans hex)


/-- Witness for C7: a dismissed key whose thread satisfies the creation
predicate ends up with a dismissed row, not an open one. -/
theorem c7_dismissed_sticky_witness :
    (["k7"].contains "k7" = true) ∧
    (findRow (syncDashTodos [exC7thread] [exC7todo] ["k7"] [] 50).1
        "k7").map DashRow.status = some TodoStatus.dismissedT := by
  refine ⟨by decide, ?_⟩
  cases hr : findRow (syncDashTodos [exC7thread] [exC7todo] ["k7"] [] 50).1
      "k7" with
  | none => exact absurd hr (by decide)
  | some r =>
    have h := c7_dismissed_sticky [exC7thread] [exC7todo] ["k7"] [] 50 "k7"
      (by decide) rfl r hr
    simp [h]

/-- Witness for C4: a thread whose last email is our outbound reply gets
its open todo resolved with resolvedBy email_activity. -/
theorem c4_resolution_rule_witness :
    (findRow (syncDashTodos [exC4wthread] [] [] [exC4row] 400).1 "k4").map
        (fun r => (r.status, r.resolvedBy)) =
      some (TodoStatus.resolvedT, some ResolvedBy.email_activity) := by
  have h := c4_resolution_rule [exC4wthread] [] [] [exC4row] 400 "k4"
    exC4row exC4wthread (by decide) (by decide) (by decide) (by decide)
    (by decide)
  rw [h]
  decide

/-- Counterexample to C4 as stated: the thread contains an outbound
reply dated after the todo's detection point, yet because a trailing
inbound acknowledgment makes the LAST email inbound, the open todo is
left open and unresolved by the reconciliation pass. -/
theorem c4_trailing_inbound_leaves_open :
    isOutbound exC4out = true ∧
    exC4out ∈ exC4thread.emails ∧
    exC4row.firstDetectedAt < sortKey exC4out ∧
    exC4row.status = TodoStatus.opened ∧
    (findRow (syncDashTodos [exC4thread] [] [] [exC4row] 400).1 "k4").map
        (fun r => (r.status, r.resolvedBy)) =
      some (TodoStatus.opened, none) := by
  decide

end EmailFetcher
